import Mathlib

set_option maxRecDepth 100000

/-!
Shallow embedding of the dynamic-value-to-typed-columnar conversion and
statistics engine (package `streaming` in the source): typed column buffers,
per-column statistics, and the per-type `ValidateAndConvert` converters.

Conventions of the embedding:
* machine integers are carried as `Int`/`Nat` with explicit wrapping where the
  source can overflow; Go's truncating `/` on integers is `Int.tdiv`;
* Go code mutating `stats`/`buf` through pointers is state passing: every
  converter returns the statistics buffer and column buffer as they are when
  the Go function returns, together with an optional error;
* float64 is carried as `F64` (a rational or NaN), since the claims concern
  ordering and NaN flow, not rounding;
* definitions whose Go source is not under `src/` (the `int128` package, the
  bloblang coercions, the Go standard time library, the stats-buffer
  construction site) are marked `Modelled from the spec:` in their doc string.
-/

namespace Streaming

/-- Conversion errors of the converters, carrying the data that the Go error
messages name (lengths, years, the offending string, the required precision). -/
inductive SFErr where
  | nullValue : SFErr
  | valueTooLong (len max : Nat) : SFErr
  | invalidUTF8 : SFErr
  | notJSONArray : SFErr
  | notJSONObject : SFErr
  | timestampParse (s : String) : SFErr
  | timestampPrecision (tsec : Int) (tnsec : Nat) (v : Int) (precision : Int) : SFErr
  | dateOutOfRange (year : Int) : SFErr
  | precisionOverflow (n : Int) (precision scale : Int) : SFErr
  | numberParse (s : String) : SFErr
  | cannotCoerce (target : String) : SFErr
deriving DecidableEq, Repr

/-- Rendering of the error messages built by the code under `src/`, matching
the Go `fmt` strings character for character. -/
def SFErr.render : SFErr → String
  | .nullValue => "unexpected null value"
  | .valueTooLong len max => "value too long, length: " ++ toString len ++ ", max: " ++ toString max
  | .invalidUTF8 => "invalid UTF8"
  | .notJSONArray => "not a JSON array"
  | .notJSONObject => "not a JSON object"
  | .timestampParse s => "unable to parse timestamp value from \"" ++ s ++ "\""
  | .timestampPrecision _ _ _ p => "unable to fit timestamp within required precision: " ++ toString p
  | .dateOutOfRange y => "DATE columns out of range, year: " ++ toString y
  | .precisionOverflow n p s =>
      "number " ++ toString n ++ " does not fit in precision " ++ toString p ++ " scale " ++ toString s
  | .numberParse s => "unable to parse number from \"" ++ s ++ "\""
  | .cannotCoerce t => "value cannot be coerced into " ++ t

/-- Decidable equality of `Except` results, so witnesses can be checked by
evaluation. -/
def exceptDecEqFun {e a : Type} [DecidableEq e] [DecidableEq a] :
    (x y : Except e a) → Decidable (x = y)
  | .error x, .error y =>
    if h : x = y then .isTrue (by rw [h]) else .isFalse (fun he => by cases he; exact h rfl)
  | .error _, .ok _ => .isFalse (fun h => by cases h)
  | .ok _, .error _ => .isFalse (fun h => by cases h)
  | .ok x, .ok y =>
    if h : x = y then .isTrue (by rw [h]) else .isFalse (fun he => by cases he; exact h rfl)

instance {e a : Type} [DecidableEq e] [DecidableEq a] : DecidableEq (Except e a) :=
  exceptDecEqFun

/-- Model of a Go float64 as far as the claims observe it: either NaN or a
finite value carried as a rational (finite floats are ordered exactly as their
rational values; infinities do not arise in the claims). -/
inductive F64 where
  | nan : F64
  | finite (q : ℚ) : F64
deriving DecidableEq, Repr

/-- Go's built-in `min` on float64 operands: any NaN operand yields NaN,
otherwise the numeric minimum. -/
def goMinF64 : F64 → F64 → F64
  | .nan, _ => .nan
  | .finite _, .nan => .nan
  | .finite a, .finite b => .finite (min a b)

/-- Go's built-in `max` on float64 operands: any NaN operand yields NaN,
otherwise the numeric maximum. -/
def goMaxF64 : F64 → F64 → F64
  | .nan, _ => .nan
  | .finite _, .nan => .nan
  | .finite a, .finite b => .finite (max a b)

/-- UTF-8 encoding of one Unicode code point (Go strings hold UTF-8 bytes). -/
def utf8EncodeChar (c : Nat) : List Nat :=
  if c < 0x80 then [c]
  else if c < 0x800 then [0xC0 + c / 0x40, 0x80 + c % 0x40]
  else if c < 0x10000 then [0xE0 + c / 0x1000, 0x80 + c / 0x40 % 0x40, 0x80 + c % 0x40]
  else [0xF0 + c / 0x40000, 0x80 + c / 0x1000 % 0x40, 0x80 + c / 0x40 % 0x40, 0x80 + c % 0x40]

/-- Nat sequence of a Go string (its UTF-8 encoding). -/
def strToBytes (s : String) : List Nat :=
  (s.data.map fun c => utf8EncodeChar c.toNat).flatten

/-- Question: is `b` a UTF-8 continuation byte? -/
def isCont (b : Nat) : Bool := 0x80 ≤ b && b ≤ 0xBF

/-- Model of Go `unicode/utf8.Valid`: the byte list is entirely well-formed
UTF-8 (shortest forms only, surrogates and code points above U+10FFFF
rejected), following the Go decoder's acceptance ranges. -/
def utf8Valid : List Nat → Bool
  | [] => true
  | b :: rest =>
    if b ≤ 0x7F then utf8Valid rest
    else if b < 0xC2 then false
    else if b ≤ 0xDF then
      match rest with
      | c1 :: r => isCont c1 && utf8Valid r
      | [] => false
    else if b ≤ 0xEF then
      match rest with
      | c1 :: c2 :: r =>
        (((if b = 0xE0 then 0xA0 else 0x80) ≤ c1 && c1 ≤ (if b = 0xED then 0x9F else 0xBF))
          && isCont c2) && utf8Valid r
      | _ => false
    else if b ≤ 0xF4 then
      match rest with
      | c1 :: c2 :: c3 :: r =>
        (((if b = 0xF0 then 0x90 else 0x80) ≤ c1 && c1 ≤ (if b = 0xF4 then 0x8F else 0xBF))
          && isCont c2 && isCont c3) && utf8Valid r
      | _ => false
    else false

/-- Model of Go `bytes.Compare`: byte-lexicographic three-way comparison, a
proper prefix comparing less than the longer sequence. -/
def bytesCompare : List Nat → List Nat → Ordering
  | [], [] => .eq
  | [], _ :: _ => .lt
  | _ :: _, [] => .gt
  | a :: as, b :: bs => if a < b then .lt else if b < a then .gt else bytesCompare as bs

/-- Nat-lexicographic "less or equal", in terms of `bytesCompare`. -/
def bytesLe (a b : List Nat) : Prop := bytesCompare a b ≠ .gt

namespace int128

/-- Modelled from the spec: the `int128` package is not under `src/`. A `Num`
is a 128-bit two's-complement integer interpreted against a decimal scale; we
carry its mathematical value as an `Int` (the constructors below only produce
values inside `[-2^127, 2^127)`). -/
abbrev Num := Int

/-- Modelled from the spec: construction from a native signed 64-bit value
(always representable). -/
def FromInt64 (i : Int) : Num := i

/-- Modelled from the spec: construction from a native unsigned 64-bit value
(always representable). -/
def FromUint64 (u : Int) : Num := u

/-- Modelled from the spec: `FitsInPrecision(p)` holds when the value needs at
most `p` decimal digits, i.e. `|n| < 10^p`. -/
def FitsInPrecision (n : Num) (precision : Int) : Bool :=
  n.natAbs < 10 ^ precision.toNat

/-- Modelled from the spec: scale-aware minimum of two `Num`s at a common
scale, which is the integer minimum. -/
def Min (a b : Num) : Num := min a b

/-- Modelled from the spec: scale-aware maximum of two `Num`s at a common
scale, which is the integer maximum. -/
def Max (a b : Num) : Num := max a b

/-- Modelled from the spec: `ToInt64` narrows to a native 64-bit integer,
keeping the low 64 bits (two's complement truncation). -/
def ToInt64 (n : Num) : Int :=
  let r := n % 2 ^ 64
  if r < 2 ^ 63 then r else r - 2 ^ 64

/-- Go's conversion `int32(x)` of a 64-bit value: the low 32 bits, two's
complement. -/
def toInt32Wrap (i : Int) : Int :=
  let r := i % 2 ^ 32
  if r < 2 ^ 31 then r else r - 2 ^ 32

/-- Modelled from the spec: `ToBigEndian` serializes the full 128-bit two's
complement value as 16 big-endian bytes (the width used by the generic column
buffer's fixed-length byte array cells). -/
def ToBigEndian (n : Num) : List Nat :=
  let u : Nat := (n % 2 ^ 128).toNat
  [u / 256 ^ 15 % 256, u / 256 ^ 14 % 256, u / 256 ^ 13 % 256, u / 256 ^ 12 % 256,
   u / 256 ^ 11 % 256, u / 256 ^ 10 % 256, u / 256 ^ 9 % 256, u / 256 ^ 8 % 256,
   u / 256 ^ 7 % 256, u / 256 ^ 6 % 256, u / 256 ^ 5 % 256, u / 256 ^ 4 % 256,
   u / 256 ^ 3 % 256, u / 256 ^ 2 % 256, u / 256 ^ 1 % 256, u % 256]

/-- Unsigned value of a big-endian byte sequence. -/
def fromBigEndianNat (bs : List Nat) : Nat :=
  bs.foldl (fun acc b => acc * 256 + b) 0

/-- Signed (two's complement) value of a 16-byte big-endian sequence: the
reader's view of a fixed-length byte array cell produced by `ToBigEndian`. -/
def fromBigEndian (bs : List Nat) : Int :=
  let u := fromBigEndianNat bs
  if u < 2 ^ 127 then (u : Int) else (u : Int) - 2 ^ 128

/-- Modelled from the spec: `Rescale` reinterprets a `Num` of implied scale 0
at the column's declared (precision, scale): the value is multiplied by
`10^scale` and the result must fit the declared precision, else a
precision-overflow error is returned (never a silent truncation). -/
def Rescale (n : Num) (precision scale : Int) : Except SFErr Num :=
  let r := n * 10 ^ scale.toNat
  if FitsInPrecision r precision then .ok r
  else .error (.precisionOverflow n precision scale)

/-- Modelled from the spec: `FromFloat64` builds a `Num` from a float at the
declared (precision, scale); it fails on NaN (the value cannot be
represented), scales by `10^scale` truncating toward zero per the spec's
rescale scenario (`Int.tdiv` of the finite value's numerator against its
denominator), and fails with a precision overflow when the scaled value does
not fit. -/
def FromFloat64 (x : F64) (precision scale : Int) : Except SFErr Num :=
  match x with
  | .nan => .error (.cannotCoerce "a number from NaN")
  | .finite q =>
    let r := Int.tdiv (q.num * 10 ^ scale.toNat) (q.den : Int)
    if FitsInPrecision r precision then .ok r
    else .error (.precisionOverflow r precision scale)

/-- Modelled from the spec: `FromFloat32` behaves as `FromFloat64` after the
exact float32-to-float64 widening. -/
def FromFloat32 (x : F64) (precision scale : Int) : Except SFErr Num :=
  FromFloat64 x precision scale

/-- Digit accumulator for decimal text: `none` on a non-digit character. -/
def decDigitsVal? : List Char → Nat → Option Nat
  | [], acc => some acc
  | c :: rest, acc =>
    if c.isDigit then decDigitsVal? rest (acc * 10 + (c.toNat - 48)) else none

/-- Modelled from the spec: parse of a decimal text token (optional sign,
integer digits, optional '.' and fractional digits) into its parts: the sign,
the integer digits' value, the fractional digits' value, and the count of
fractional digits, so the token denotes `±(ip + fp / 10^k)`. -/
def parseDecimal? (s : String) : Option (Bool × Nat × Nat × Nat) :=
  let cs := s.data
  let sign : Bool := match cs with
    | '-' :: _ => true
    | _ => false
  let cs := match cs with
    | '-' :: r => r
    | '+' :: r => r
    | r => r
  let intPart := cs.takeWhile fun c => c ≠ '.'
  let rest := cs.dropWhile fun c => c ≠ '.'
  if intPart.isEmpty then none
  else
    match decDigitsVal? intPart 0 with
    | none => none
    | some ip =>
      match rest with
      | [] => some (sign, ip, 0, 0)
      | _ :: frac =>
        if frac.isEmpty then none
        else
          match decDigitsVal? frac 0 with
          | none => none
          | some fp => some (sign, ip, fp, frac.length)

/-- Modelled from the spec: `FromString` parses a decimal text token at the
given (precision, scale); a malformed token is a parse error naming the
offending string, and the scaled value truncates toward zero (floor of the
non-negative magnitude, negated when signed) and must fit the declared
precision. -/
def FromString (s : String) (precision scale : Int) : Except SFErr Num :=
  match parseDecimal? s with
  | none => .error (.numberParse s)
  | some (sign, ip, fp, k) =>
    let mag : Nat := ip * 10 ^ scale.toNat + fp * 10 ^ scale.toNat / 10 ^ k
    let r : Int := if sign then -(mag : Int) else (mag : Int)
    if FitsInPrecision r precision then .ok r
    else .error (.precisionOverflow r precision scale)

end int128

/-- Logical content of one parquet cell as the column buffers produce it. The
repetition/definition level tagging attached by the source's `.Level(0, 1,
columnIndex)` calls is an external encoding concern (spec section 6); the cell
carries the logical value and its null/non-null state. -/
inductive CellValue where
  | nullCell : CellValue
  | booleanCell (b : Bool) : CellValue
  | doubleCell (x : F64) : CellValue
  | int32Cell (i : Int) : CellValue
  | int64Cell (i : Int) : CellValue
  | fixedLenByteArrayCell (bs : List Nat) : CellValue
  | byteArrayCell (bs : List Nat) : CellValue
deriving DecidableEq, Repr

/-- State of `typedBufferImpl`: the shared row-major cell matrix, the column
index, row width and the write cursor. -/
structure typedBufferImpl where
  matrix : List CellValue
  columnIndex : Nat
  rowWidth : Nat
  currentRow : Nat
deriving DecidableEq, Repr

/-- Write of one cell at `(currentRow * rowWidth) + columnIndex`, advancing
the row cursor by one (the matrix is pre-sized; an out-of-range write is out
of the model as it would panic in Go). -/
def typedBufferImpl.WriteValue (b : typedBufferImpl) (v : CellValue) : typedBufferImpl :=
  { b with
    matrix := b.matrix.set (b.currentRow * b.rowWidth + b.columnIndex) v
    currentRow := b.currentRow + 1 }

/-- Binding of the buffer to a matrix region, resetting the row cursor. -/
def typedBufferImpl.Prepare (_b : typedBufferImpl) (matrix : List CellValue)
    (columnIndex rowWidth : Nat) : typedBufferImpl :=
  { matrix := matrix, columnIndex := columnIndex, rowWidth := rowWidth, currentRow := 0 }

/-- Reset re-binds to the empty state, dropping the matrix reference. -/
def typedBufferImpl.Reset (b : typedBufferImpl) : typedBufferImpl :=
  b.Prepare [] 0 0

/-- Which `typedBuffer` implementation a column uses: the generic
`typedBufferImpl`, or the narrow `int64Buffer` / `int32Buffer`
specializations that override only `WriteInt128`. -/
inductive bufferKind where
  | generic : bufferKind
  | int64buf : bufferKind
  | int32buf : bufferKind
deriving DecidableEq, Repr

/-- One column buffer: an implementation kind together with the shared
`typedBufferImpl` state (the specializations embed `typedBufferImpl`). -/
structure TBuf where
  kind : bufferKind
  impl : typedBufferImpl
deriving DecidableEq, Repr

/-- WriteNull of the embedded `typedBufferImpl` (not overridden by the
specializations). -/
def TBuf.WriteNull (b : TBuf) : TBuf :=
  { b with impl := b.impl.WriteValue .nullCell }

/-- WriteBool of the embedded `typedBufferImpl`. -/
def TBuf.WriteBool (b : TBuf) (v : Bool) : TBuf :=
  { b with impl := b.impl.WriteValue (.booleanCell v) }

/-- WriteFloat64 of the embedded `typedBufferImpl`. -/
def TBuf.WriteFloat64 (b : TBuf) (v : F64) : TBuf :=
  { b with impl := b.impl.WriteValue (.doubleCell v) }

/-- WriteBytes of the embedded `typedBufferImpl`. -/
def TBuf.WriteBytes (b : TBuf) (v : List Nat) : TBuf :=
  { b with impl := b.impl.WriteValue (.byteArrayCell v) }

/-- WriteInt128 dispatch: the generic buffer stores the full 16-byte
big-endian value; `int64Buffer` stores `v.ToInt64()` as an Int64 cell;
`int32Buffer` stores `int32(v.ToInt64())` as an Int32 cell. -/
def TBuf.WriteInt128 (b : TBuf) (v : int128.Num) : TBuf :=
  match b.kind with
  | .generic => { b with impl := b.impl.WriteValue (.fixedLenByteArrayCell (int128.ToBigEndian v)) }
  | .int64buf => { b with impl := b.impl.WriteValue (.int64Cell (int128.ToInt64 v)) }
  | .int32buf => { b with impl := b.impl.WriteValue (.int32Cell (int128.toInt32Wrap (int128.ToInt64 v))) }

/-- Per-column statistics buffer, fields exactly as the converters in the
source use them. -/
structure statsBuffer where
  first : Bool
  nullCount : Int
  minIntVal : int128.Num
  maxIntVal : int128.Num
  minRealVal : F64
  maxRealVal : F64
  minStrVal : List Nat
  maxStrVal : List Nat
  maxStrLen : Nat
deriving DecidableEq, Repr

/-- Modelled from the spec: a fresh per-column statistics buffer at chunk
start (the construction site is not under `src/`): zero aggregates with
`first` still set, since no non-null value has been seen. -/
def statsBuffer.init : statsBuffer :=
  { first := true, nullCount := 0, minIntVal := 0, maxIntVal := 0,
    minRealVal := .finite 0, maxRealVal := .finite 0,
    minStrVal := [], maxStrVal := [], maxStrLen := 0 }

/-- Modelled from the spec: a Go `time.Time` as the converters observe it: an
absolute instant (unix seconds plus a nanosecond in `[0, 10^9)`) and the
display zone's offset from UTC in seconds. `Unix` and `Nanosecond` depend on
the instant alone; the civil-clock accessors read the instant shifted by the
offset. -/
structure TimeVal where
  sec : Int
  nsec : Nat
  offset : Int
deriving DecidableEq, Repr

/-- Go `t.Unix()`: seconds since the epoch, independent of the zone. -/
def TimeVal.Unix (t : TimeVal) : Int := t.sec

/-- Go `t.Nanosecond()`: the sub-second nanoseconds, independent of the zone. -/
def TimeVal.Nanosecond (t : TimeVal) : Nat := t.nsec

/-- Go `t.UTC()` (and `t.In(time.UTC)`): same instant, display offset zero. -/
def TimeVal.UTC (t : TimeVal) : TimeVal := { t with offset := 0 }

/-- Seconds-on-the-wall-clock of the display zone. -/
def TimeVal.localSec (t : TimeVal) : Int := t.sec + t.offset

/-- Go `t.Hour()`: hour of the day on the display clock. -/
def TimeVal.Hour (t : TimeVal) : Int := Int.emod t.localSec 86400 / 3600

/-- Go `t.Minute()`: minute of the hour on the display clock. -/
def TimeVal.Minute (t : TimeVal) : Int := Int.emod t.localSec 3600 / 60

/-- Go `t.Second()`: second of the minute on the display clock. -/
def TimeVal.Second (t : TimeVal) : Int := Int.emod t.localSec 60

/-- Modelled from the spec: proleptic Gregorian year of a day count relative
to the unix epoch (Hinnant's civil-from-days algorithm, as the Go time
library's calendar arithmetic computes it; the library is not under `src/`). -/
def civilYearFromDays (z0 : Int) : Int :=
  let z := z0 + 719468
  let era := Int.fdiv z 146097
  let doe := z - era * 146097
  let yoe := (doe - doe / 1460 + doe / 36524 - doe / 146096) / 365
  let y := yoe + era * 400
  let doy := doe - (365 * yoe + yoe / 4 - yoe / 100)
  let mp := (5 * doy + 2) / 153
  let m := if mp < 10 then mp + 3 else mp - 9
  if m ≤ 2 then y + 1 else y

/-- Modelled from the spec: days from the unix epoch of a proleptic Gregorian
civil date (inverse of `civilYearFromDays`'s calendar). -/
def daysFromCivil (y m d : Int) : Int :=
  let y := if m ≤ 2 then y - 1 else y
  let era := Int.fdiv y 400
  let yoe := y - era * 400
  let mp := Int.emod (m + 9) 12
  let doy := (153 * mp + 2) / 5 + d - 1
  let doe := yoe * 365 + yoe / 4 - yoe / 100 + doy
  era * 146097 + doe - 719468

/-- Go `t.Year()`: calendar year on the display clock. -/
def TimeVal.Year (t : TimeVal) : Int :=
  civilYearFromDays (Int.fdiv t.localSec 86400)

/-- Go's zero `time.Time`: January 1 of year 1, 00:00:00 UTC. -/
def timeZero : TimeVal := { sec := -62135596800, nsec := 0, offset := 0 }

/-- Decimal digit value of a character, if it is a digit. -/
def digit? (c : Char) : Option Nat :=
  if c.isDigit then some (c.toNat - 48) else none

/-- Two-digit decimal field of a timestamp string. -/
def twoDigits? : List Char → Option (Nat × List Char)
  | a :: b :: r =>
    match digit? a, digit? b with
    | some x, some y => some (x * 10 + y, r)
    | _, _ => none
  | _ => none

/-- Leap year test of the proleptic Gregorian calendar. -/
def isLeapYear (y : Int) : Bool :=
  (Int.emod y 4 = 0 && Int.emod y 100 ≠ 0) || Int.emod y 400 = 0

/-- Days in a month of the proleptic Gregorian calendar. -/
def daysInMonth (m y : Int) : Int :=
  if m = 2 then (if isLeapYear y then 29 else 28)
  else if m = 4 ∨ m = 6 ∨ m = 9 ∨ m = 11 then 30
  else 31

/-- Fractional-seconds field: a dot and one to nine digits, yielding
nanoseconds. -/
def parseFrac? : List Char → Option (Nat × List Char)
  | '.' :: rest =>
    let digitsPart := rest.takeWhile fun c => c.isDigit
    let tail := rest.dropWhile fun c => c.isDigit
    if digitsPart.isEmpty ∨ 9 < digitsPart.length then none
    else
      match int128.decDigitsVal? digitsPart 0 with
      | none => none
      | some d => some (d * 10 ^ (9 - digitsPart.length), tail)
  | _ => none

/-- Zone designator: `Z`/`z` (UTC), or `±hh:mm`; yields the offset from UTC
in seconds. -/
def parseZone? : List Char → Option (Int × List Char)
  | 'Z' :: r => some (0, r)
  | 'z' :: r => some (0, r)
  | '+' :: r =>
    match twoDigits? r with
    | some (h, ':' :: r2) =>
      match twoDigits? r2 with
      | some (m, r3) => if h ≤ 23 ∧ m ≤ 59 then some ((h * 3600 + m * 60 : Nat), r3) else none
      | none => none
    | _ => none
  | '-' :: r =>
    match twoDigits? r with
    | some (h, ':' :: r2) =>
      match twoDigits? r2 with
      | some (m, r3) => if h ≤ 23 ∧ m ≤ 59 then some (-((h * 3600 + m * 60 : Nat) : Int), r3) else none
      | none => none
    | _ => none
  | _ => none

/-- Modelled from the spec: the fields of an extended ISO-8601 timestamp with
nanoseconds — `yyyy-mm-ddThh:mm:ss` with an optional fractional part and an
optional zone (absent meaning the default location applies). Returns the
civil fields, the nanoseconds, and the zone offset when one is present. -/
def parseRFC3339Parts : List Char →
    Option (Int × Int × Int × Int × Int × Int × Nat × Option Int)
  | cs =>
    match twoDigits? cs with
    | none => none
    | some (y12, cs) =>
    match twoDigits? cs with
    | none => none
    | some (y34, cs) =>
    match cs with
    | '-' :: cs =>
      match twoDigits? cs with
      | none => none
      | some (mo, cs) =>
      match cs with
      | '-' :: cs =>
        match twoDigits? cs with
        | none => none
        | some (d, cs) =>
        match cs with
        | 'T' :: cs =>
          match twoDigits? cs with
          | none => none
          | some (h, cs) =>
          match cs with
          | ':' :: cs =>
            match twoDigits? cs with
            | none => none
            | some (mi, cs) =>
            match cs with
            | ':' :: cs =>
              match twoDigits? cs with
              | none => none
              | some (se, cs) =>
              let y : Int := (y12 * 100 + y34 : Nat)
              let ns : Nat × List Char := (parseFrac? cs).getD (0, cs)
              let zone : Option (Int × List Char) := parseZone? ns.2
              let rest := match zone with
                | some (_, r) => r
                | none => ns.2
              if rest.isEmpty ∧ 1 ≤ mo ∧ (mo : Int) ≤ 12 ∧ 1 ≤ d ∧
                  (d : Int) ≤ daysInMonth (mo : Int) y ∧ h ≤ 23 ∧ mi ≤ 59 ∧ se ≤ 59 then
                some (y, mo, d, h, mi, se, ns.1, zone.map Prod.fst)
              else none
            | _ => none
          | _ => none
        | _ => none
      | _ => none
    | _ => none

/-- Modelled from the spec: Go `time.ParseInLocation` with the
`time.RFC3339Nano` layout (the time library is not under `src/`): the string
must be an extended ISO-8601 timestamp with optional nanoseconds; a string
carrying no zone designator is interpreted in the given default location
(an offset from UTC in seconds). Returns `none` when the string is not such a
timestamp. -/
def parseInLocation (s : String) (defaultOffset : Int) : Option TimeVal :=
  match parseRFC3339Parts s.data with
  | none => none
  | some (y, mo, d, h, mi, se, ns, zone) =>
    let offset := zone.getD defaultOffset
    some { sec := daysFromCivil y mo d * 86400 + h * 3600 + mi * 60 + se - offset
           nsec := ns
           offset := offset }

/-- Modelled from the spec: the precomputed power-of-ten table the time
converter indexes by `9 - scale` (the table is not under `src/`). -/
def pow10TableInt64 (i : Nat) : Int := 10 ^ i

/-- Modelled from the spec: `snowflakeTimestampInt` combines the instant's
epoch seconds and nanoseconds into one integer at the declared scale
(truncating), and, when the timezone is included, shifts the value and packs
the zone offset (in minutes, biased by 1440) into the low 14 bits. The
function is not under `src/`. -/
def snowflakeTimestampInt (t : TimeVal) (scale : Int) (includeTZ : Bool) : int128.Num :=
  let total := t.sec * 10 ^ 9 + (t.nsec : Int)
  let v := Int.tdiv total (10 ^ (9 - scale).toNat)
  if includeTZ then v * 2 ^ 14 + (Int.tdiv t.offset 60 + 1440) else v

/-- Which dynamic Go type a JSON-decoded value has, as far as the JSON
converters' type assertions test it: `[]any`, `map[string]any`, or neither. -/
inductive JsonShape where
  | arrayShape : JsonShape
  | objectShape : JsonShape
  | otherShape : JsonShape
deriving DecidableEq, Repr

/-- Runtime value of one (row, column) pair, the closed union the converters
dispatch on. All native signed integer widths funnel through `FromInt64` after
an exact widening and all unsigned widths through `FromUint64`, so one
constructor per family is a faithful collapse of the source's identical
switch cases; `jsonVal` carries the dynamic shape the JSON converters assert
on together with its canonical re-encoding (the gabs encoder is external and
its canonicalization left open by the spec). -/
inductive RuntimeValue where
  | boolean (b : Bool) : RuntimeValue
  | intVal (i : Int) : RuntimeValue
  | uintVal (u : Int) : RuntimeValue
  | float32V (x : F64) : RuntimeValue
  | float64V (x : F64) : RuntimeValue
  | str (s : String) : RuntimeValue
  | bytes (bs : List Nat) : RuntimeValue
  | jsonNumber (s : String) : RuntimeValue
  | timestamp (t : TimeVal) : RuntimeValue
  | jsonVal (shape : JsonShape) (enc : List Nat) : RuntimeValue
deriving DecidableEq, Repr

/-- Modelled from the spec: `gabs.Wrap(val).Bytes()`, the canonical JSON
re-encoding used by the JSON converters. The encoder is external to `src/`
and the spec leaves its canonicalization open, so the model fixes one
encoding; values carrying their canonical encoding return it. -/
def gabsBytes : RuntimeValue → List Nat
  | .jsonVal _ enc => enc
  | .boolean b => strToBytes (if b then "true" else "false")
  | .intVal i => strToBytes (toString i)
  | .uintVal u => strToBytes (toString u)
  | .str s => strToBytes ("\"" ++ s ++ "\"")
  | _ => strToBytes "null"

/-- Go `string(v)` of a byte slice, as the timestamp converter builds its
parse input: byte-preserving for ASCII (the only bytes the timestamp grammar
accepts); each byte becomes one code point. -/
def stringOfBytes (bs : List Nat) : String :=
  ⟨bs.map fun b => Char.ofNat b⟩

/-- Modelled from the spec: `bloblang.ValueAsBool` (not under `src/`):
boolean values coerce, other kinds fail with a coercion error. -/
def ValueAsBool : RuntimeValue → Except SFErr Bool
  | .boolean b => .ok b
  | _ => .error (.cannotCoerce "bool")

/-- Modelled from the spec: `bloblang.ValueAsFloat64` (not under `src/`):
numeric kinds coerce to float64. Spec section 4.3 requires NaN be rejected
before it reaches the statistics and the visible converter contains no check,
so the rejection lives in this coercion: a NaN float input fails. -/
def ValueAsFloat64 : RuntimeValue → Except SFErr ℚ
  | .intVal i => .ok (i : ℚ)
  | .uintVal u => .ok (u : ℚ)
  | .float32V (.finite q) => .ok q
  | .float64V (.finite q) => .ok q
  | .float32V .nan => .error (.cannotCoerce "float64 from NaN")
  | .float64V .nan => .error (.cannotCoerce "float64 from NaN")
  | _ => .error (.cannotCoerce "float64")

/-- Modelled from the spec: `bloblang.ValueAsInt64` (not under `src/`),
reached only on the number converter's fallback branch for its error message;
integer kinds coerce, the kinds that actually reach the fallback do not. -/
def ValueAsInt64 : RuntimeValue → Except SFErr Int
  | .intVal i => .ok i
  | .uintVal u => .ok u
  | _ => .error (.cannotCoerce "int64")

/-- Modelled from the spec: `bloblang.ValueAsBytes` (not under `src/`):
strings yield their UTF-8 bytes, byte values pass through, other kinds fail. -/
def ValueAsBytes : RuntimeValue → Except SFErr (List Nat)
  | .str s => .ok (strToBytes s)
  | .bytes bs => .ok bs
  | _ => .error (.cannotCoerce "bytes")

/-- Modelled from the spec: `bloblang.ValueAsTimestamp` (not under `src/`):
pre-parsed timestamps coerce, other kinds fail. -/
def ValueAsTimestamp : RuntimeValue → Except SFErr TimeVal
  | .timestamp t => .ok t
  | _ => .error (.cannotCoerce "timestamp")

/-- Result of one `ValidateAndConvert` call: the optional error together with
the statistics buffer and column buffer exactly as they stand when the Go
function returns (the Go code mutates them through pointers). -/
structure ConvResult where
  err : Option SFErr
  stats : statsBuffer
  buf : TBuf
deriving DecidableEq, Repr

/-- Configuration of `boolConverter`. -/
structure boolConverter where
  nullable : Bool
deriving DecidableEq, Repr

/-- Translation of `boolConverter.ValidateAndConvert`. -/
def boolConverter.ValidateAndConvert (c : boolConverter) (stats : statsBuffer)
    (val : Option RuntimeValue) (buf : TBuf) : ConvResult :=
  match val with
  | none =>
    if !c.nullable then { err := some .nullValue, stats := stats, buf := buf }
    else
      let stats := { stats with nullCount := stats.nullCount + 1 }
      { err := none, stats := stats, buf := buf.WriteNull }
  | some val =>
    match ValueAsBool val with
    | .error e => { err := some e, stats := stats, buf := buf }
    | .ok v =>
      let i := if v then int128.FromUint64 1 else int128.FromUint64 0
      let stats :=
        if stats.first then
          { stats with minIntVal := i, maxIntVal := i, first := false }
        else
          { stats with minIntVal := int128.Min stats.minIntVal i
                       maxIntVal := int128.Max stats.maxIntVal i }
      { err := none, stats := stats, buf := buf.WriteBool v }

/-- Configuration of `numberConverter`. -/
structure numberConverter where
  nullable : Bool
  scale : Int
  precision : Int
deriving DecidableEq, Repr

/-- Conversion arm of `numberConverter.ValidateAndConvert`: the source's type
switch. All native signed widths funnel through `FromInt64` and all unsigned
widths through `FromUint64` followed by `Rescale` (the Go cases are identical
after the exact widening); floats go through `FromFloat32`/`FromFloat64`,
strings and `json.Number` through `FromString`, and the remaining kinds hit
the bloblang fallback for its error message. -/
def numberConverter.convert (c : numberConverter) (val : RuntimeValue) :
    Except SFErr int128.Num :=
  match val with
  | .intVal i => int128.Rescale (int128.FromInt64 i) c.precision c.scale
  | .uintVal u => int128.Rescale (int128.FromUint64 u) c.precision c.scale
  | .float32V x => int128.FromFloat32 x c.precision c.scale
  | .float64V x => int128.FromFloat64 x c.precision c.scale
  | .str s => int128.FromString s c.precision c.scale
  | .jsonNumber s => int128.FromString s c.precision c.scale
  | v =>
    match ValueAsInt64 v with
    | .error e => .error e
    | .ok i => int128.Rescale (int128.FromInt64 i) c.precision c.scale

/-- Translation of `numberConverter.ValidateAndConvert`. -/
def numberConverter.ValidateAndConvert (c : numberConverter) (stats : statsBuffer)
    (val : Option RuntimeValue) (buf : TBuf) : ConvResult :=
  match val with
  | none =>
    if !c.nullable then { err := some .nullValue, stats := stats, buf := buf }
    else
      let stats := { stats with nullCount := stats.nullCount + 1 }
      { err := none, stats := stats, buf := buf.WriteNull }
  | some val =>
    match c.convert val with
    | .error e => { err := some e, stats := stats, buf := buf }
    | .ok v =>
      let stats :=
        if stats.first then
          { stats with minIntVal := v, maxIntVal := v, first := false }
        else
          { stats with minIntVal := int128.Min stats.minIntVal v
                       maxIntVal := int128.Max stats.maxIntVal v }
      { err := none, stats := stats, buf := buf.WriteInt128 v }

/-- Configuration of `doubleConverter`. -/
structure doubleConverter where
  nullable : Bool
deriving DecidableEq, Repr

/-- Translation of `doubleConverter.ValidateAndConvert`. -/
def doubleConverter.ValidateAndConvert (c : doubleConverter) (stats : statsBuffer)
    (val : Option RuntimeValue) (buf : TBuf) : ConvResult :=
  match val with
  | none =>
    if !c.nullable then { err := some .nullValue, stats := stats, buf := buf }
    else
      let stats := { stats with nullCount := stats.nullCount + 1 }
      { err := none, stats := stats, buf := buf.WriteNull }
  | some val =>
    match ValueAsFloat64 val with
    | .error e => { err := some e, stats := stats, buf := buf }
    | .ok q =>
      let v : F64 := .finite q
      let stats :=
        if stats.first then
          { stats with minRealVal := v, maxRealVal := v, first := false }
        else
          { stats with minRealVal := goMinF64 stats.minRealVal v
                       maxRealVal := goMaxF64 stats.maxRealVal v }
      { err := none, stats := stats, buf := buf.WriteFloat64 v }

/-- Configuration of `binaryConverter`. -/
structure binaryConverter where
  nullable : Bool
  maxLength : Nat
  utf8 : Bool
deriving DecidableEq, Repr

/-- Translation of `binaryConverter.ValidateAndConvert`. -/
def binaryConverter.ValidateAndConvert (c : binaryConverter) (stats : statsBuffer)
    (val : Option RuntimeValue) (buf : TBuf) : ConvResult :=
  match val with
  | none =>
    if !c.nullable then { err := some .nullValue, stats := stats, buf := buf }
    else
      let stats := { stats with nullCount := stats.nullCount + 1 }
      { err := none, stats := stats, buf := buf.WriteNull }
  | some val =>
    match ValueAsBytes val with
    | .error e => { err := some e, stats := stats, buf := buf }
    | .ok v =>
      if v.length > c.maxLength then
        { err := some (.valueTooLong v.length c.maxLength), stats := stats, buf := buf }
      else if c.utf8 && !utf8Valid v then
        { err := some .invalidUTF8, stats := stats, buf := buf }
      else
        let stats :=
          if stats.first then
            { stats with minStrVal := v, maxStrVal := v, maxStrLen := v.length, first := false }
          else
            let stats :=
              if bytesCompare v stats.minStrVal = .lt then { stats with minStrVal := v } else stats
            let stats :=
              if bytesCompare v stats.maxStrVal = .gt then { stats with maxStrVal := v } else stats
            { stats with maxStrLen := max stats.maxStrLen v.length }
        { err := none, stats := stats, buf := buf.WriteBytes v }

/-- Configuration of `jsonConverter`. -/
structure jsonConverter where
  nullable : Bool
  maxLength : Nat
deriving DecidableEq, Repr

/-- Translation of `jsonConverter.ValidateAndConvert`. -/
def jsonConverter.ValidateAndConvert (c : jsonConverter) (stats : statsBuffer)
    (val : Option RuntimeValue) (buf : TBuf) : ConvResult :=
  match val with
  | none =>
    if !c.nullable then { err := some .nullValue, stats := stats, buf := buf }
    else
      let stats := { stats with nullCount := stats.nullCount + 1 }
      { err := none, stats := stats, buf := buf.WriteNull }
  | some val =>
    let v := gabsBytes val
    if v.length > c.maxLength then
      { err := some (.valueTooLong v.length c.maxLength), stats := stats, buf := buf }
    else
      let stats :=
        if stats.first then
          { stats with minStrVal := v, maxStrVal := v, maxStrLen := v.length, first := false }
        else
          let stats :=
            if bytesCompare v stats.minStrVal = .lt then { stats with minStrVal := v } else stats
          let stats :=
            if bytesCompare v stats.maxStrVal = .gt then { stats with maxStrVal := v } else stats
          { stats with maxStrLen := max stats.maxStrLen v.length }
      { err := none, stats := stats, buf := buf.WriteBytes v }

/-- Translation of `jsonArrayConverter.ValidateAndConvert`: a non-nil value
must have dynamic type `[]any`, then the embedded `jsonConverter` runs. -/
def jsonArrayConverter.ValidateAndConvert (c : jsonConverter) (stats : statsBuffer)
    (val : Option RuntimeValue) (buf : TBuf) : ConvResult :=
  match val with
  | some (.jsonVal .arrayShape enc) =>
    c.ValidateAndConvert stats (some (.jsonVal .arrayShape enc)) buf
  | some _ => { err := some .notJSONArray, stats := stats, buf := buf }
  | none => c.ValidateAndConvert stats none buf

/-- Translation of `jsonObjectConverter.ValidateAndConvert`: a non-nil value
must have dynamic type `map[string]any`, then the embedded `jsonConverter`
runs. -/
def jsonObjectConverter.ValidateAndConvert (c : jsonConverter) (stats : statsBuffer)
    (val : Option RuntimeValue) (buf : TBuf) : ConvResult :=
  match val with
  | some (.jsonVal .objectShape enc) =>
    c.ValidateAndConvert stats (some (.jsonVal .objectShape enc)) buf
  | some _ => { err := some .notJSONObject, stats := stats, buf := buf }
  | none => c.ValidateAndConvert stats none buf

/-- Configuration of `timestampConverter`; the default location is carried as
its offset from UTC in seconds. -/
structure timestampConverter where
  nullable : Bool
  scale : Int
  precision : Int
  includeTZ : Bool
  trimTZ : Bool
  defaultTZ : Int
deriving DecidableEq, Repr

/-- Tail of `timestampConverter.ValidateAndConvert` from the point where the
time `t1` is in hand (Go statements from `if c.trimTZ {` on): `trimTZ`
normalizes to UTC, the value is encoded via `snowflakeTimestampInt` and must
fit the declared precision, else the error names the time, the computed value
and the precision; on success statistics update and the value is written. -/
def timestampConverter.encodeStage (c : timestampConverter) (stats : statsBuffer)
    (buf : TBuf) (t1 : TimeVal) : ConvResult :=
  let t := if c.trimTZ then t1.UTC else t1
  let v := snowflakeTimestampInt t c.scale c.includeTZ
  if !int128.FitsInPrecision v c.precision then
    { err := some (.timestampPrecision t.sec t.nsec v c.precision),
      stats := stats, buf := buf }
  else
    let stats :=
      if stats.first then
        { stats with minIntVal := v, maxIntVal := v, first := false }
      else
        { stats with minIntVal := int128.Min stats.minIntVal v
                     maxIntVal := int128.Max stats.maxIntVal v }
    { err := none, stats := stats, buf := buf.WriteInt128 v }

/-- Middle of `timestampConverter.ValidateAndConvert` once the parse source
`s` and the provisional time `t0` are set (Go statements from `if s != "" {`
on): a non-empty `s` is parsed in the default location, failing with a parse
error naming the input. -/
def timestampConverter.parseStage (c : timestampConverter) (stats : statsBuffer)
    (buf : TBuf) (s : String) (t0 : TimeVal) : ConvResult :=
  if s ≠ "" then
    match parseInLocation s c.defaultTZ with
    | none => { err := some (.timestampParse s), stats := stats, buf := buf }
    | some t1 => c.encodeStage stats buf t1
  else c.encodeStage stats buf t0

/-- Translation of `timestampConverter.ValidateAndConvert`, staged as the Go
function's sequential statements: byte and string inputs set the parse source
`s` (the zero time standing in Go's `var t time.Time` until assigned), other
inputs coerce via `ValueAsTimestamp`; then `parseStage` and `encodeStage`
run. -/
def timestampConverter.ValidateAndConvert (c : timestampConverter) (stats : statsBuffer)
    (val : Option RuntimeValue) (buf : TBuf) : ConvResult :=
  match val with
  | none =>
    if !c.nullable then { err := some .nullValue, stats := stats, buf := buf }
    else
      let stats := { stats with nullCount := stats.nullCount + 1 }
      { err := none, stats := stats, buf := buf.WriteNull }
  | some val =>
    match val with
    | .bytes v => c.parseStage stats buf (stringOfBytes v) timeZero
    | .str v => c.parseStage stats buf v timeZero
    | _ =>
      match ValueAsTimestamp val with
      | .error e => { err := some e, stats := stats, buf := buf }
      | .ok t => c.parseStage stats buf "" t

/-- Configuration of `timeConverter`. -/
structure timeConverter where
  nullable : Bool
  scale : Int
deriving DecidableEq, Repr

/-- Translation of `timeConverter.ValidateAndConvert`: the coerced timestamp
is taken to UTC, the nanoseconds since midnight are computed from the UTC
clock fields, and the value is truncated to the declared scale by integer
division against the power-of-ten table. -/
def timeConverter.ValidateAndConvert (c : timeConverter) (stats : statsBuffer)
    (val : Option RuntimeValue) (buf : TBuf) : ConvResult :=
  match val with
  | none =>
    if !c.nullable then { err := some .nullValue, stats := stats, buf := buf }
    else
      let stats := { stats with nullCount := stats.nullCount + 1 }
      { err := none, stats := stats, buf := buf.WriteNull }
  | some val =>
    match ValueAsTimestamp val with
    | .error e => { err := some e, stats := stats, buf := buf }
    | .ok t =>
      let t := t.UTC
      let nanos := t.Hour * 3600000000000 + t.Minute * 60000000000 +
        t.Second * 1000000000 + (t.Nanosecond : Int)
      let v := int128.FromInt64 (Int.tdiv nanos (pow10TableInt64 (9 - c.scale).toNat))
      let stats :=
        if stats.first then
          { stats with minIntVal := v, maxIntVal := v, first := false }
        else
          { stats with minIntVal := int128.Min stats.minIntVal v
                       maxIntVal := int128.Max stats.maxIntVal v }
      { err := none, stats := stats, buf := buf.WriteInt128 v }

/-- Configuration of `dateConverter`. -/
structure dateConverter where
  nullable : Bool
deriving DecidableEq, Repr

/-- Translation of `dateConverter.ValidateAndConvert`: the coerced timestamp
is taken to UTC, years outside `[-9999, 9999]` are rejected naming the year,
and the value is the truncating division of the unix seconds by 86400. -/
def dateConverter.ValidateAndConvert (c : dateConverter) (stats : statsBuffer)
    (val : Option RuntimeValue) (buf : TBuf) : ConvResult :=
  match val with
  | none =>
    if !c.nullable then { err := some .nullValue, stats := stats, buf := buf }
    else
      let stats := { stats with nullCount := stats.nullCount + 1 }
      { err := none, stats := stats, buf := buf.WriteNull }
  | some val =>
    match ValueAsTimestamp val with
    | .error e => { err := some e, stats := stats, buf := buf }
    | .ok t =>
      let t := t.UTC
      if t.Year < -9999 ∨ t.Year > 9999 then
        { err := some (.dateOutOfRange t.Year), stats := stats, buf := buf }
      else
        let v := int128.FromInt64 (Int.tdiv t.Unix (24 * 60 * 60))
        let stats :=
          if stats.first then
            { stats with minIntVal := v, maxIntVal := v, first := false }
          else
            { stats with minIntVal := int128.Min stats.minIntVal v
                         maxIntVal := int128.Max stats.maxIntVal v }
        { err := none, stats := stats, buf := buf.WriteInt128 v }

/-- Modelled from the spec: the conversion driver's per-column loop (the
driver is external-facing, spec section 2): values are converted in row
order and the chunk build aborts on the first error, leaving the statistics
and buffer as the failing call left them. -/
def runRows (step : statsBuffer → Option RuntimeValue → TBuf → ConvResult) :
    statsBuffer → TBuf → List (Option RuntimeValue) → ConvResult
  | stats, buf, [] => { err := none, stats := stats, buf := buf }
  | stats, buf, v :: rest =>
    let r := step stats v buf
    match r.err with
    | some e => { err := some e, stats := r.stats, buf := r.buf }
    | none => runRows step r.stats r.buf rest

/-- Count of the absent (nil) inputs of a sequence. -/
def countNulls (l : List (Option RuntimeValue)) : Nat :=
  l.countP fun o => o.isNone

/-- Converted values of the non-null inputs a number-converter run accepts. -/
def convertedNums (c : numberConverter) (l : List (Option RuntimeValue)) : List int128.Num :=
  l.filterMap fun ov => ov.bind fun v => (c.convert v).toOption

/-- Coerced float values of the non-null inputs a double-converter run
accepts. -/
def convertedQs (l : List (Option RuntimeValue)) : List ℚ :=
  l.filterMap fun ov => ov.bind fun v => (ValueAsFloat64 v).toOption

/-- Coerced byte values of the non-null inputs a binary-converter run
accepts. -/
def convertedBytes (l : List (Option RuntimeValue)) : List (List Nat) :=
  l.filterMap fun ov => ov.bind fun v => (ValueAsBytes v).toOption

/-- Step of the source's byte-wise minimum update: keep the new value when it
compares less than the accumulator. -/
def bMinStep (acc v : List Nat) : List Nat :=
  if bytesCompare v acc = .lt then v else acc

/-- Step of the source's byte-wise maximum update: keep the new value when it
compares greater than the accumulator. -/
def bMaxStep (acc v : List Nat) : List Nat :=
  if bytesCompare v acc = .gt then v else acc

/-- Nanoseconds since midnight of the instant's UTC clock, the quantity the
time-of-day column stores before scale truncation. -/
def nanosOfDayUTC (t : TimeVal) : Int :=
  t.UTC.Hour * 3600000000000 + t.UTC.Minute * 60000000000 +
    t.UTC.Second * 1000000000 + (t.UTC.Nanosecond : Int)

/-- Externally observable integer of a stored cell: Int32 and Int64 cells
carry it directly, a fixed-length byte array cell decodes as a 128-bit
big-endian two's-complement value; other cells carry no integer. -/
def logicalIntValue : CellValue → Option Int
  | .int32Cell i => some i
  | .int64Cell i => some i
  | .fixedLenByteArrayCell bs => some (int128.fromBigEndian bs)
  | _ => none

/-- Example column buffer (generic kind) used by the witness theorems: a
one-column matrix of four pre-allocated rows, freshly prepared. -/
def exampleBuf : TBuf :=
  { kind := .generic
    impl := { matrix := [.nullCell, .nullCell, .nullCell, .nullCell]
              columnIndex := 0, rowWidth := 1, currentRow := 0 } }

/-- Accepted statistics values of a boolean-converter run: true maps to one,
false to zero, as the converter builds them for its Int128 aggregates. -/
def convertedBools (l : List (Option RuntimeValue)) : List int128.Num :=
  l.filterMap fun ov => ov.bind fun v =>
    ((ValueAsBool v).toOption).map fun b =>
      if b then int128.FromUint64 1 else int128.FromUint64 0

/-- Value-extraction of `timestampConverter.encodeStage`'s success path: UTC
normalization under `trimTZ`, then the encoded value provided it fits the
declared precision. -/
def timestampEncode? (c : timestampConverter) (t1 : TimeVal) : Option int128.Num :=
  let t := if c.trimTZ then t1.UTC else t1
  let w := snowflakeTimestampInt t c.scale c.includeTZ
  if int128.FitsInPrecision w c.precision then some w else none

/-- Value-extraction of `timestampConverter.parseStage`'s success path: a
non-empty parse source must parse in the default location, an empty one keeps
the provisional time. -/
def timestampStageConvert? (c : timestampConverter) (s : String) (t0 : TimeVal) :
    Option int128.Num :=
  match (if s ≠ "" then parseInLocation s c.defaultTZ else some t0) with
  | none => none
  | some t1 => timestampEncode? c t1

/-- Value-extraction of the timestamp converter's success path: the parse
source and provisional time of the input kind, then the parse and encode
stages. Mirrors the stages of `timestampConverter.ValidateAndConvert`. -/
def timestampConvert? (c : timestampConverter) (val : RuntimeValue) : Option int128.Num :=
  match val with
  | .bytes v => timestampStageConvert? c (stringOfBytes v) timeZero
  | .str v => timestampStageConvert? c v timeZero
  | _ =>
    match ValueAsTimestamp val with
    | .error _ => none
    | .ok t => timestampStageConvert? c "" t

/-- Accepted encoded values of a timestamp-converter run. -/
def convertedTimestamps (c : timestampConverter) (l : List (Option RuntimeValue)) :
    List int128.Num :=
  l.filterMap fun ov => ov.bind fun v => timestampConvert? c v

/-- Value-extraction of the time-of-day converter's success path: the UTC
nanoseconds since midnight truncated to the declared scale. -/
def timeConvert? (c : timeConverter) (val : RuntimeValue) : Option int128.Num :=
  ((ValueAsTimestamp val).toOption).map fun t0 =>
    int128.FromInt64 (Int.tdiv
      (t0.UTC.Hour * 3600000000000 + t0.UTC.Minute * 60000000000 +
        t0.UTC.Second * 1000000000 + (t0.UTC.Nanosecond : Int))
      (pow10TableInt64 (9 - c.scale).toNat))

/-- Accepted encoded values of a time-of-day-converter run. -/
def convertedTimes (c : timeConverter) (l : List (Option RuntimeValue)) :
    List int128.Num :=
  l.filterMap fun ov => ov.bind fun v => timeConvert? c v

/-- Value-extraction of the date converter's success path: whole days since
the epoch for a coercible timestamp whose UTC year is in range. -/
def dateConvert? (val : RuntimeValue) : Option int128.Num :=
  match ValueAsTimestamp val with
  | .error _ => none
  | .ok t0 =>
    let t := t0.UTC
    if t.Year < -9999 ∨ t.Year > 9999 then none
    else some (int128.FromInt64 (Int.tdiv t.Unix (24 * 60 * 60)))

/-- Accepted encoded values of a date-converter run. -/
def convertedDates (l : List (Option RuntimeValue)) : List int128.Num :=
  l.filterMap fun ov => ov.bind fun v => dateConvert? v

/-- Value-extraction of the JSON converter's success path: the canonical
encoding when it is within the declared maximum length. -/
def jsonConvert? (c : jsonConverter) (val : RuntimeValue) : Option (List Nat) :=
  if (gabsBytes val).length > c.maxLength then none else some (gabsBytes val)

/-- Accepted canonical encodings of a JSON-converter run. -/
def convertedJsons (c : jsonConverter) (l : List (Option RuntimeValue)) :
    List (List Nat) :=
  l.filterMap fun ov => ov.bind fun v => jsonConvert? c v

/-- Value-extraction of the JSON-array converter: the dynamic type must be an
array, then the embedded JSON converter's extraction applies. -/
def jsonArrayConvert? (c : jsonConverter) (val : RuntimeValue) : Option (List Nat) :=
  match val with
  | .jsonVal .arrayShape enc => jsonConvert? c (.jsonVal .arrayShape enc)
  | _ => none

/-- Accepted canonical encodings of a JSON-array-converter run. -/
def convertedJsonArrays (c : jsonConverter) (l : List (Option RuntimeValue)) :
    List (List Nat) :=
  l.filterMap fun ov => ov.bind fun v => jsonArrayConvert? c v

/-- Value-extraction of the JSON-object converter: the dynamic type must be
an object, then the embedded JSON converter's extraction applies. -/
def jsonObjectConvert? (c : jsonConverter) (val : RuntimeValue) : Option (List Nat) :=
  match val with
  | .jsonVal .objectShape enc => jsonConvert? c (.jsonVal .objectShape enc)
  | _ => none

/-- Accepted canonical encodings of a JSON-object-converter run. -/
def convertedJsonObjects (c : jsonConverter) (l : List (Option RuntimeValue)) :
    List (List Nat) :=
  l.filterMap fun ov => ov.bind fun v => jsonObjectConvert? c v

/-! lemmas -/

/-- Characterization of `boolConverter` on an error. -/
theorem boolConverter_err_frame (c : boolConverter) (stats : statsBuffer)
    (val : Option RuntimeValue) (buf : TBuf) (e : SFErr)
    (h : (c.ValidateAndConvert stats val buf).err = some e) :
    c.ValidateAndConvert stats val buf = { err := some e, stats := stats, buf := buf } := by
  cases val with
  | none =>
    cases hc : c.nullable <;> simp [boolConverter.ValidateAndConvert, hc] at h ⊢ <;> exact h
  | some v =>
    cases hv : ValueAsBool v <;>
      simp [boolConverter.ValidateAndConvert, hv] at h ⊢
    exact h

/-- Characterization of `numberConverter` on an error. -/
theorem numberConverter_err_frame (c : numberConverter) (stats : statsBuffer)
    (val : Option RuntimeValue) (buf : TBuf) (e : SFErr)
    (h : (c.ValidateAndConvert stats val buf).err = some e) :
    c.ValidateAndConvert stats val buf = { err := some e, stats := stats, buf := buf } := by
  cases val with
  | none =>
    cases hc : c.nullable <;> simp [numberConverter.ValidateAndConvert, hc] at h ⊢ <;> exact h
  | some v =>
    cases hv : c.convert v <;>
      simp [numberConverter.ValidateAndConvert, hv] at h ⊢
    exact h

/-- Characterization of `doubleConverter` on an error. -/
theorem doubleConverter_err_frame (c : doubleConverter) (stats : statsBuffer)
    (val : Option RuntimeValue) (buf : TBuf) (e : SFErr)
    (h : (c.ValidateAndConvert stats val buf).err = some e) :
    c.ValidateAndConvert stats val buf = { err := some e, stats := stats, buf := buf } := by
  cases val with
  | none =>
    cases hc : c.nullable <;> simp [doubleConverter.ValidateAndConvert, hc] at h ⊢ <;> exact h
  | some v =>
    cases hv : ValueAsFloat64 v <;>
      simp [doubleConverter.ValidateAndConvert, hv] at h ⊢
    exact h

/-- Characterization of `binaryConverter` on an error. -/
theorem binaryConverter_err_frame (c : binaryConverter) (stats : statsBuffer)
    (val : Option RuntimeValue) (buf : TBuf) (e : SFErr)
    (h : (c.ValidateAndConvert stats val buf).err = some e) :
    c.ValidateAndConvert stats val buf = { err := some e, stats := stats, buf := buf } := by
  cases val with
  | none =>
    cases hc : c.nullable <;> simp [binaryConverter.ValidateAndConvert, hc] at h ⊢ <;> exact h
  | some v =>
    cases hv : ValueAsBytes v with
    | error e' => simp [binaryConverter.ValidateAndConvert, hv] at h ⊢; exact h
    | ok bs =>
      by_cases hlen : bs.length > c.maxLength
      · simp [binaryConverter.ValidateAndConvert, hv, hlen] at h ⊢
        exact h
      · by_cases hu : (c.utf8 && !utf8Valid bs) = true
        · simp [binaryConverter.ValidateAndConvert, hv, hlen, hu] at h ⊢
          exact h
        · simp [binaryConverter.ValidateAndConvert, hv, hlen, hu] at h

/-- Characterization of `jsonConverter` on an error. -/
theorem jsonConverter_err_frame (c : jsonConverter) (stats : statsBuffer)
    (val : Option RuntimeValue) (buf : TBuf) (e : SFErr)
    (h : (c.ValidateAndConvert stats val buf).err = some e) :
    c.ValidateAndConvert stats val buf = { err := some e, stats := stats, buf := buf } := by
  cases val with
  | none =>
    cases hc : c.nullable <;> simp [jsonConverter.ValidateAndConvert, hc] at h ⊢ <;> exact h
  | some v =>
    by_cases hlen : (gabsBytes v).length > c.maxLength
    · simp [jsonConverter.ValidateAndConvert, hlen] at h ⊢
      exact h
    · simp [jsonConverter.ValidateAndConvert, hlen] at h

/-- Characterization of `jsonArrayConverter` on an error. -/
theorem jsonArrayConverter_err_frame (c : jsonConverter) (stats : statsBuffer)
    (val : Option RuntimeValue) (buf : TBuf) (e : SFErr)
    (h : (jsonArrayConverter.ValidateAndConvert c stats val buf).err = some e) :
    jsonArrayConverter.ValidateAndConvert c stats val buf =
      { err := some e, stats := stats, buf := buf } := by
  cases val with
  | none =>
    simp only [jsonArrayConverter.ValidateAndConvert] at h ⊢
    exact jsonConverter_err_frame c stats none buf e h
  | some v =>
    cases v <;>
      first
        | (simp only [jsonArrayConverter.ValidateAndConvert] at h ⊢
           exact jsonConverter_err_frame _ _ _ _ _ h)
        | (rename_i sh enc
           cases sh <;>
             first
               | (simp only [jsonArrayConverter.ValidateAndConvert] at h ⊢
                  exact jsonConverter_err_frame _ _ _ _ _ h)
               | (simp only [jsonArrayConverter.ValidateAndConvert] at h ⊢
                  simp at h
                  simp [← h]))
        | (simp only [jsonArrayConverter.ValidateAndConvert] at h ⊢
           simp at h
           simp [← h])

/-- Characterization of `jsonObjectConverter` on an error. -/
theorem jsonObjectConverter_err_frame (c : jsonConverter) (stats : statsBuffer)
    (val : Option RuntimeValue) (buf : TBuf) (e : SFErr)
    (h : (jsonObjectConverter.ValidateAndConvert c stats val buf).err = some e) :
    jsonObjectConverter.ValidateAndConvert c stats val buf =
      { err := some e, stats := stats, buf := buf } := by
  cases val with
  | none =>
    simp only [jsonObjectConverter.ValidateAndConvert] at h ⊢
    exact jsonConverter_err_frame c stats none buf e h
  | some v =>
    cases v <;>
      first
        | (simp only [jsonObjectConverter.ValidateAndConvert] at h ⊢
           exact jsonConverter_err_frame _ _ _ _ _ h)
        | (rename_i sh enc
           cases sh <;>
             first
               | (simp only [jsonObjectConverter.ValidateAndConvert] at h ⊢
                  exact jsonConverter_err_frame _ _ _ _ _ h)
               | (simp only [jsonObjectConverter.ValidateAndConvert] at h ⊢
                  simp at h
                  simp [← h]))
        | (simp only [jsonObjectConverter.ValidateAndConvert] at h ⊢
           simp at h
           simp [← h])

/-- Characterization of `timestampConverter.encodeStage` on an error. -/
theorem timestampConverter_encodeStage_err_frame (c : timestampConverter)
    (stats : statsBuffer) (buf : TBuf) (t1 : TimeVal) (e : SFErr)
    (h : (c.encodeStage stats buf t1).err = some e) :
    c.encodeStage stats buf t1 = { err := some e, stats := stats, buf := buf } := by
  by_cases hf : (!int128.FitsInPrecision
      (snowflakeTimestampInt (if c.trimTZ then t1.UTC else t1) c.scale c.includeTZ)
      c.precision) = true
  · simp [timestampConverter.encodeStage, hf] at h ⊢
    exact h
  · simp [timestampConverter.encodeStage, hf] at h

/-- Characterization of `timestampConverter.parseStage` on an error. -/
theorem timestampConverter_parseStage_err_frame (c : timestampConverter)
    (stats : statsBuffer) (buf : TBuf) (s : String) (t0 : TimeVal) (e : SFErr)
    (h : (c.parseStage stats buf s t0).err = some e) :
    c.parseStage stats buf s t0 = { err := some e, stats := stats, buf := buf } := by
  by_cases hs : s ≠ ""
  · cases hp : parseInLocation s c.defaultTZ with
    | none =>
      simp [timestampConverter.parseStage, hs, hp] at h ⊢
      exact h
    | some t1 =>
      simp only [timestampConverter.parseStage, hs, hp] at h ⊢
      simp only [if_pos hs] at h ⊢
      exact timestampConverter_encodeStage_err_frame c stats buf t1 e h
  · simp only [timestampConverter.parseStage, if_neg hs] at h ⊢
    exact timestampConverter_encodeStage_err_frame c stats buf t0 e h

/-- Characterization of `timestampConverter` on an error. -/
theorem timestampConverter_err_frame (c : timestampConverter) (stats : statsBuffer)
    (val : Option RuntimeValue) (buf : TBuf) (e : SFErr)
    (h : (c.ValidateAndConvert stats val buf).err = some e) :
    c.ValidateAndConvert stats val buf = { err := some e, stats := stats, buf := buf } := by
  cases val with
  | none =>
    cases hc : c.nullable <;>
      simp [timestampConverter.ValidateAndConvert, hc] at h ⊢ <;> exact h
  | some v =>
    cases v with
    | bytes bs =>
      exact timestampConverter_parseStage_err_frame c stats buf _ _ e h
    | str s =>
      exact timestampConverter_parseStage_err_frame c stats buf _ _ e h
    | timestamp t =>
      exact timestampConverter_parseStage_err_frame c stats buf _ _ e h
    | _ =>
      simp [timestampConverter.ValidateAndConvert, ValueAsTimestamp] at h ⊢
      exact h

/-- Characterization of `timeConverter` on an error. -/
theorem timeConverter_err_frame (c : timeConverter) (stats : statsBuffer)
    (val : Option RuntimeValue) (buf : TBuf) (e : SFErr)
    (h : (c.ValidateAndConvert stats val buf).err = some e) :
    c.ValidateAndConvert stats val buf = { err := some e, stats := stats, buf := buf } := by
  cases val with
  | none =>
    cases hc : c.nullable <;> simp [timeConverter.ValidateAndConvert, hc] at h ⊢ <;> exact h
  | some v =>
    cases hv : ValueAsTimestamp v <;>
      simp [timeConverter.ValidateAndConvert, hv] at h ⊢
    exact h

/-- Characterization of `dateConverter` on an error. -/
theorem dateConverter_err_frame (c : dateConverter) (stats : statsBuffer)
    (val : Option RuntimeValue) (buf : TBuf) (e : SFErr)
    (h : (c.ValidateAndConvert stats val buf).err = some e) :
    c.ValidateAndConvert stats val buf = { err := some e, stats := stats, buf := buf } := by
  cases val with
  | none =>
    cases hc : c.nullable <;> simp [dateConverter.ValidateAndConvert, hc] at h ⊢ <;> exact h
  | some v =>
    cases hv : ValueAsTimestamp v with
    | error e' =>
      simp [dateConverter.ValidateAndConvert, hv] at h ⊢
      exact h
    | ok t =>
      by_cases hy : t.UTC.Year < -9999 ∨ t.UTC.Year > 9999
      · simp [dateConverter.ValidateAndConvert, hv, hy] at h ⊢
        exact h
      · simp [dateConverter.ValidateAndConvert, hv, hy] at h

/-- C2: for every converter variant (boolean, fixed-point number, floating
point, binary/string, JSON array, JSON object, timestamp, time-of-day, date)
and an absent (nil) input value: a non-nullable column fails with the
null-not-allowed error and nothing changes; a nullable column increments
`nullCount` by exactly one, writes exactly one null cell, returns success,
and leaves every other statistics field (first, min, max, maxStrLen)
unchanged — the `with`-update of `nullCount` alone states the latter. -/
theorem claim_C2_null_handling (stats : statsBuffer) (buf : TBuf) :
    (∀ c : boolConverter, c.ValidateAndConvert stats none buf =
      if c.nullable then
        { err := none, stats := { stats with nullCount := stats.nullCount + 1 },
          buf := buf.WriteNull }
      else { err := some .nullValue, stats := stats, buf := buf })
    ∧ (∀ c : numberConverter, c.ValidateAndConvert stats none buf =
      if c.nullable then
        { err := none, stats := { stats with nullCount := stats.nullCount + 1 },
          buf := buf.WriteNull }
      else { err := some .nullValue, stats := stats, buf := buf })
    ∧ (∀ c : doubleConverter, c.ValidateAndConvert stats none buf =
      if c.nullable then
        { err := none, stats := { stats with nullCount := stats.nullCount + 1 },
          buf := buf.WriteNull }
      else { err := some .nullValue, stats := stats, buf := buf })
    ∧ (∀ c : binaryConverter, c.ValidateAndConvert stats none buf =
      if c.nullable then
        { err := none, stats := { stats with nullCount := stats.nullCount + 1 },
          buf := buf.WriteNull }
      else { err := some .nullValue, stats := stats, buf := buf })
    ∧ (∀ c : jsonConverter, jsonArrayConverter.ValidateAndConvert c stats none buf =
      if c.nullable then
        { err := none, stats := { stats with nullCount := stats.nullCount + 1 },
          buf := buf.WriteNull }
      else { err := some .nullValue, stats := stats, buf := buf })
    ∧ (∀ c : jsonConverter, jsonObjectConverter.ValidateAndConvert c stats none buf =
      if c.nullable then
        { err := none, stats := { stats with nullCount := stats.nullCount + 1 },
          buf := buf.WriteNull }
      else { err := some .nullValue, stats := stats, buf := buf })
    ∧ (∀ c : timestampConverter, c.ValidateAndConvert stats none buf =
      if c.nullable then
        { err := none, stats := { stats with nullCount := stats.nullCount + 1 },
          buf := buf.WriteNull }
      else { err := some .nullValue, stats := stats, buf := buf })
    ∧ (∀ c : timeConverter, c.ValidateAndConvert stats none buf =
      if c.nullable then
        { err := none, stats := { stats with nullCount := stats.nullCount + 1 },
          buf := buf.WriteNull }
      else { err := some .nullValue, stats := stats, buf := buf })
    ∧ (∀ c : dateConverter, c.ValidateAndConvert stats none buf =
      if c.nullable then
        { err := none, stats := { stats with nullCount := stats.nullCount + 1 },
          buf := buf.WriteNull }
      else { err := some .nullValue, stats := stats, buf := buf }) := by
  refine ⟨?_, ?_, ?_, ?_, ?_, ?_, ?_, ?_, ?_⟩ <;>
    intro c <;>
      cases hc : c.nullable <;>
        simp [boolConverter.ValidateAndConvert, numberConverter.ValidateAndConvert,
          doubleConverter.ValidateAndConvert, binaryConverter.ValidateAndConvert,
          jsonConverter.ValidateAndConvert, jsonArrayConverter.ValidateAndConvert,
          jsonObjectConverter.ValidateAndConvert, timestampConverter.ValidateAndConvert,
          timeConverter.ValidateAndConvert, dateConverter.ValidateAndConvert, hc]

/-- C10: for every converter variant and every input value, a
`ValidateAndConvert` call that returns an error leaves both the statistics
buffer and the column buffer completely unchanged: no cell is written, the
row cursor does not advance, and no statistics field is modified. -/
theorem claim_C10_error_atomicity (stats : statsBuffer) (val : Option RuntimeValue)
    (buf : TBuf) (e : SFErr) :
    (∀ c : boolConverter, (c.ValidateAndConvert stats val buf).err = some e →
      c.ValidateAndConvert stats val buf = { err := some e, stats := stats, buf := buf })
    ∧ (∀ c : numberConverter, (c.ValidateAndConvert stats val buf).err = some e →
      c.ValidateAndConvert stats val buf = { err := some e, stats := stats, buf := buf })
    ∧ (∀ c : doubleConverter, (c.ValidateAndConvert stats val buf).err = some e →
      c.ValidateAndConvert stats val buf = { err := some e, stats := stats, buf := buf })
    ∧ (∀ c : binaryConverter, (c.ValidateAndConvert stats val buf).err = some e →
      c.ValidateAndConvert stats val buf = { err := some e, stats := stats, buf := buf })
    ∧ (∀ c : jsonConverter, (c.ValidateAndConvert stats val buf).err = some e →
      c.ValidateAndConvert stats val buf = { err := some e, stats := stats, buf := buf })
    ∧ (∀ c : jsonConverter, (jsonArrayConverter.ValidateAndConvert c stats val buf).err = some e →
      jsonArrayConverter.ValidateAndConvert c stats val buf =
        { err := some e, stats := stats, buf := buf })
    ∧ (∀ c : jsonConverter, (jsonObjectConverter.ValidateAndConvert c stats val buf).err = some e →
      jsonObjectConverter.ValidateAndConvert c stats val buf =
        { err := some e, stats := stats, buf := buf })
    ∧ (∀ c : timestampConverter, (c.ValidateAndConvert stats val buf).err = some e →
      c.ValidateAndConvert stats val buf = { err := some e, stats := stats, buf := buf })
    ∧ (∀ c : timeConverter, (c.ValidateAndConvert stats val buf).err = some e →
      c.ValidateAndConvert stats val buf = { err := some e, stats := stats, buf := buf })
    ∧ (∀ c : dateConverter, (c.ValidateAndConvert stats val buf).err = some e →
      c.ValidateAndConvert stats val buf = { err := some e, stats := stats, buf := buf }) :=
  ⟨fun c h => boolConverter_err_frame c stats val buf e h,
   fun c h => numberConverter_err_frame c stats val buf e h,
   fun c h => doubleConverter_err_frame c stats val buf e h,
   fun c h => binaryConverter_err_frame c stats val buf e h,
   fun c h => jsonConverter_err_frame c stats val buf e h,
   fun c h => jsonArrayConverter_err_frame c stats val buf e h,
   fun c h => jsonObjectConverter_err_frame c stats val buf e h,
   fun c h => timestampConverter_err_frame c stats val buf e h,
   fun c h => timeConverter_err_frame c stats val buf e h,
   fun c h => dateConverter_err_frame c stats val buf e h⟩

/-- Closed instance of the error-atomicity theorem: a too-long binary value
fails and the statistics and buffer are exactly the input ones. -/
theorem claim_C10_witness :
    (({ nullable := false, maxLength := 3, utf8 := true } :
        binaryConverter).ValidateAndConvert statsBuffer.init
        (some (.str "abcd")) exampleBuf).err = some (.valueTooLong 4 3) ∧
    ({ nullable := false, maxLength := 3, utf8 := true } :
        binaryConverter).ValidateAndConvert statsBuffer.init
        (some (.str "abcd")) exampleBuf =
      { err := some (.valueTooLong 4 3), stats := statsBuffer.init, buf := exampleBuf } := by
  have h : (({ nullable := false, maxLength := 3, utf8 := true } :
      binaryConverter).ValidateAndConvert statsBuffer.init
      (some (.str "abcd")) exampleBuf).err = some (.valueTooLong 4 3) := by decide
  exact ⟨h, (claim_C10_error_atomicity statsBuffer.init (some (.str "abcd")) exampleBuf
    (.valueTooLong 4 3)).2.2.2.1 _ h⟩

/-- C5: for every non-null timestamp-coercible input to the date converter,
after normalizing to UTC, a year outside `[-9999, 9999]` fails with a
date-out-of-range error naming the year, and otherwise the encoded cell value
equals the truncating integer division of the value's unix seconds by 86400
(whole days since the epoch). -/
theorem claim_C5_date_range_and_epoch_days (c : dateConverter) (stats : statsBuffer)
    (buf : TBuf) (val : RuntimeValue) (t : TimeVal)
    (h : ValueAsTimestamp val = .ok t) :
    (t.UTC.Year < -9999 ∨ t.UTC.Year > 9999 →
      c.ValidateAndConvert stats (some val) buf =
        { err := some (.dateOutOfRange t.UTC.Year), stats := stats, buf := buf })
    ∧ (-9999 ≤ t.UTC.Year → t.UTC.Year ≤ 9999 →
      (c.ValidateAndConvert stats (some val) buf).err = none ∧
      (c.ValidateAndConvert stats (some val) buf).buf =
        buf.WriteInt128 (int128.FromInt64 (Int.tdiv t.Unix 86400))) := by
  constructor
  · intro hy
    simp [dateConverter.ValidateAndConvert, h, hy]
  · intro h1 h2
    simp only [dateConverter.ValidateAndConvert, h]
    rw [if_neg (show ¬(t.UTC.Year < -9999 ∨ t.UTC.Year > 9999) by omega)]
    constructor
    · rfl
    · simp [TimeVal.Unix, TimeVal.UTC]

/-- Closed instance of the date-converter theorem at the claim's boundary
years: the last day count of year `-9999`'s start succeeds and encodes the
truncated epoch-day quotient, while years `-10000` and `10000` fail naming
the year. -/
theorem claim_C5_witness :
    ValueAsTimestamp (.timestamp ⟨-377705116800, 0, 0⟩) =
      .ok (⟨-377705116800, 0, 0⟩ : TimeVal) ∧
    (TimeVal.UTC ⟨-377705116800, 0, 0⟩).Year = -9999 ∧
    ((⟨true⟩ : dateConverter).ValidateAndConvert statsBuffer.init
      (some (.timestamp ⟨-377705116800, 0, 0⟩)) exampleBuf).err = none ∧
    ((⟨true⟩ : dateConverter).ValidateAndConvert statsBuffer.init
      (some (.timestamp ⟨-377705116800, 0, 0⟩)) exampleBuf).buf =
      exampleBuf.WriteInt128 (int128.FromInt64 (-4371587)) ∧
    (⟨true⟩ : dateConverter).ValidateAndConvert statsBuffer.init
      (some (.timestamp ⟨-377705203200, 0, 0⟩)) exampleBuf =
      { err := some (.dateOutOfRange (-10000)), stats := statsBuffer.init, buf := exampleBuf } ∧
    ((⟨true⟩ : dateConverter).ValidateAndConvert statsBuffer.init
      (some (.timestamp ⟨253402300800, 0, 0⟩)) exampleBuf).err =
      some (.dateOutOfRange 10000) := by
  have h := claim_C5_date_range_and_epoch_days ⟨true⟩ statsBuffer.init exampleBuf
    (.timestamp ⟨-377705116800, 0, 0⟩) ⟨-377705116800, 0, 0⟩ rfl
  have h2 := h.2 (by decide) (by decide)
  have hlow := (claim_C5_date_range_and_epoch_days ⟨true⟩ statsBuffer.init exampleBuf
    (.timestamp ⟨-377705203200, 0, 0⟩) ⟨-377705203200, 0, 0⟩ rfl).1 (by decide)
  refine ⟨rfl, by decide, h2.1, ?_, ?_, by decide⟩
  · rw [h2.2]; decide
  · rw [hlow]; decide

/-- C6: for every non-null timestamp-coercible input to the time-of-day
converter and every declared scale in `0..9`, the encoded value equals the
nanoseconds since midnight of the UTC clock (hour, minute, second and
nanosecond fields combined) divided by `10^(9-scale)` with truncating integer
division. -/
theorem claim_C6_time_truncation (c : timeConverter) (stats : statsBuffer) (buf : TBuf)
    (val : RuntimeValue) (t : TimeVal) (h : ValueAsTimestamp val = .ok t)
    (h0 : 0 ≤ c.scale) (h9 : c.scale ≤ 9) :
    (c.ValidateAndConvert stats (some val) buf).err = none ∧
    (c.ValidateAndConvert stats (some val) buf).buf =
      buf.WriteInt128 (int128.FromInt64
        (Int.tdiv (nanosOfDayUTC t) (10 ^ (9 - c.scale).toNat))) := by
  constructor
  · simp [timeConverter.ValidateAndConvert, h]
  · simp [timeConverter.ValidateAndConvert, h, nanosOfDayUTC, pow10TableInt64,
      TimeVal.UTC, TimeVal.Nanosecond]

/-- Closed instance of the time-of-day theorem at `23:59:59.999999999`: scale
0 truncates to 86399 (never rounding up to 86400), scale 3 to 86399999, and
scale 9 keeps all 86399999999999 nanoseconds. -/
theorem claim_C6_witness :
    ValueAsTimestamp (.timestamp ⟨86399, 999999999, 0⟩) =
      .ok (⟨86399, 999999999, 0⟩ : TimeVal) ∧
    (0 : Int) ≤ 0 ∧ (0 : Int) ≤ 9 ∧
    nanosOfDayUTC ⟨86399, 999999999, 0⟩ = 86399999999999 ∧
    ((⟨true, 0⟩ : timeConverter).ValidateAndConvert statsBuffer.init
      (some (.timestamp ⟨86399, 999999999, 0⟩)) exampleBuf).err = none ∧
    ((⟨true, 0⟩ : timeConverter).ValidateAndConvert statsBuffer.init
      (some (.timestamp ⟨86399, 999999999, 0⟩)) exampleBuf).buf =
      exampleBuf.WriteInt128 (int128.FromInt64 86399) ∧
    ((⟨true, 3⟩ : timeConverter).ValidateAndConvert statsBuffer.init
      (some (.timestamp ⟨86399, 999999999, 0⟩)) exampleBuf).buf =
      exampleBuf.WriteInt128 (int128.FromInt64 86399999) ∧
    ((⟨true, 9⟩ : timeConverter).ValidateAndConvert statsBuffer.init
      (some (.timestamp ⟨86399, 999999999, 0⟩)) exampleBuf).buf =
      exampleBuf.WriteInt128 (int128.FromInt64 86399999999999) := by
  have h := claim_C6_time_truncation ⟨true, 0⟩ statsBuffer.init exampleBuf
    (.timestamp ⟨86399, 999999999, 0⟩) ⟨86399, 999999999, 0⟩ rfl (by decide) (by decide)
  refine ⟨rfl, by decide, by decide, by decide, h.1, ?_, by decide, by decide⟩
  rw [h.2]; decide

/-- Success of `int128.Rescale` only produces values that fit the declared
precision. -/
theorem int128_Rescale_ok_fits (n p s : Int) (r : int128.Num)
    (h : int128.Rescale n p s = .ok r) : int128.FitsInPrecision r p = true := by
  unfold int128.Rescale at h
  by_cases hf : int128.FitsInPrecision (n * 10 ^ s.toNat) p = true
  · simp only [hf, if_true] at h
    cases h
    exact hf
  · simp only [hf, if_false, Bool.false_eq_true] at h
    cases h

/-- Success of `int128.FromFloat64` only produces values that fit the declared
precision. -/
theorem int128_FromFloat64_ok_fits (x : F64) (p s : Int) (r : int128.Num)
    (h : int128.FromFloat64 x p s = .ok r) : int128.FitsInPrecision r p = true := by
  unfold int128.FromFloat64 at h
  cases x with
  | nan => cases h
  | finite q =>
    by_cases hf : int128.FitsInPrecision (Int.tdiv (q.num * 10 ^ s.toNat) (q.den : Int)) p = true
    · simp only [hf, if_true] at h
      cases h
      exact hf
    · simp only [hf, if_false, Bool.false_eq_true] at h
      cases h

/-- Success of `int128.FromString` only produces values that fit the declared
precision. -/
theorem int128_FromString_ok_fits (str : String) (p s : Int) (r : int128.Num)
    (h : int128.FromString str p s = .ok r) : int128.FitsInPrecision r p = true := by
  unfold int128.FromString at h
  cases hp : int128.parseDecimal? str with
  | none => rw [hp] at h; cases h
  | some parts =>
    rw [hp] at h
    obtain ⟨sign, ip, fp, k⟩ := parts
    by_cases hf : int128.FitsInPrecision
        (if sign then -((ip * 10 ^ s.toNat + fp * 10 ^ s.toNat / 10 ^ k : Nat) : Int)
         else ((ip * 10 ^ s.toNat + fp * 10 ^ s.toNat / 10 ^ k : Nat) : Int)) p = true
    · simp only [hf, if_true] at h
      cases h
      exact hf
    · simp only [hf, if_false, Bool.false_eq_true] at h
      cases h

/-- C3: every accepted input of the fixed-point number converter goes through
the Int128 construction/rescale path captured by `numberConverter.convert`:
when that path fails, `ValidateAndConvert` returns the underlying error
verbatim (the very same error value, not wrapped) with nothing written; when
it succeeds, the committed value always fits the declared precision (so an
overflowing value is never silently truncated nor written), the statistics
update with it and exactly it is written to the buffer. -/
theorem claim_C3_number_rescale_errors (c : numberConverter) (stats : statsBuffer)
    (buf : TBuf) (v : RuntimeValue) :
    (∀ e : SFErr, c.convert v = .error e →
      c.ValidateAndConvert stats (some v) buf =
        { err := some e, stats := stats, buf := buf })
    ∧ (∀ n : int128.Num, c.convert v = .ok n →
      int128.FitsInPrecision n c.precision = true ∧
      c.ValidateAndConvert stats (some v) buf =
        { err := none
          stats := if stats.first then
              { stats with minIntVal := n, maxIntVal := n, first := false }
            else
              { stats with minIntVal := int128.Min stats.minIntVal n
                           maxIntVal := int128.Max stats.maxIntVal n }
          buf := buf.WriteInt128 n }) := by
  constructor
  · intro e he
    simp [numberConverter.ValidateAndConvert, he]
  · intro n hn
    constructor
    · cases v with
      | intVal i => exact int128_Rescale_ok_fits _ _ _ _ hn
      | uintVal u => exact int128_Rescale_ok_fits _ _ _ _ hn
      | float32V x => exact int128_FromFloat64_ok_fits _ _ _ _ hn
      | float64V x => exact int128_FromFloat64_ok_fits _ _ _ _ hn
      | str s => exact int128_FromString_ok_fits _ _ _ _ hn
      | jsonNumber s => exact int128_FromString_ok_fits _ _ _ _ hn
      | boolean b => simp [numberConverter.convert, ValueAsInt64] at hn
      | bytes bs => simp [numberConverter.convert, ValueAsInt64] at hn
      | timestamp t => simp [numberConverter.convert, ValueAsInt64] at hn
      | jsonVal sh enc => simp [numberConverter.convert, ValueAsInt64] at hn
    · simp [numberConverter.ValidateAndConvert, hn]

/-- Closed instance of the number-converter theorem: at (precision 10, scale
2), the decimal string "2.50" rescales to 250 and is written; the malformed
string "boom" fails with the parse error verbatim and nothing changes; the
native integer 10^10 overflows the precision after rescale and the rescale
error is returned verbatim with nothing written. -/
theorem claim_C3_witness :
    (⟨true, 2, 10⟩ : numberConverter).convert (.str "2.50") = .ok 250 ∧
    int128.FitsInPrecision 250 10 = true ∧
    (⟨true, 2, 10⟩ : numberConverter).ValidateAndConvert statsBuffer.init
      (some (.str "2.50")) exampleBuf =
      { err := none
        stats := { statsBuffer.init with minIntVal := 250, maxIntVal := 250, first := false }
        buf := exampleBuf.WriteInt128 250 } ∧
    (⟨true, 2, 10⟩ : numberConverter).convert (.str "boom") =
      .error (.numberParse "boom") ∧
    (⟨true, 2, 10⟩ : numberConverter).ValidateAndConvert statsBuffer.init
      (some (.str "boom")) exampleBuf =
      { err := some (.numberParse "boom"), stats := statsBuffer.init, buf := exampleBuf } ∧
    (⟨true, 2, 10⟩ : numberConverter).convert (.intVal 10000000000) =
      .error (.precisionOverflow 10000000000 10 2) ∧
    (⟨true, 2, 10⟩ : numberConverter).ValidateAndConvert statsBuffer.init
      (some (.intVal 10000000000)) exampleBuf =
      { err := some (.precisionOverflow 10000000000 10 2)
        stats := statsBuffer.init, buf := exampleBuf } := by
  have hok := (claim_C3_number_rescale_errors ⟨true, 2, 10⟩ statsBuffer.init exampleBuf
    (.str "2.50")).2 250 (by decide)
  have herr := (claim_C3_number_rescale_errors ⟨true, 2, 10⟩ statsBuffer.init exampleBuf
    (.str "boom")).1 (.numberParse "boom") (by decide)
  have hovf := (claim_C3_number_rescale_errors ⟨true, 2, 10⟩ statsBuffer.init exampleBuf
    (.intVal 10000000000)).1 (.precisionOverflow 10000000000 10 2) (by decide)
  refine ⟨by decide, hok.1, ?_, by decide, herr, by decide, hovf⟩
  rw [hok.2]
  decide

/-- C9: a NaN never reaches the floating-point statistics: when the double
converter succeeds, the cell written to the buffer carries a finite (non-NaN)
float, and the accumulated real min/max stay non-NaN whenever they start out
non-NaN (or the column is still on its first value). -/
theorem claim_C9_double_rejects_nan (c : doubleConverter) (stats : statsBuffer)
    (val : RuntimeValue) (buf : TBuf)
    (h : (c.ValidateAndConvert stats (some val) buf).err = none) :
    (∃ q : ℚ, ValueAsFloat64 val = .ok q ∧
      (c.ValidateAndConvert stats (some val) buf).buf = buf.WriteFloat64 (.finite q)) ∧
    (stats.first = true ∨ (stats.minRealVal ≠ .nan ∧ stats.maxRealVal ≠ .nan) →
      (c.ValidateAndConvert stats (some val) buf).stats.minRealVal ≠ F64.nan ∧
      (c.ValidateAndConvert stats (some val) buf).stats.maxRealVal ≠ F64.nan) := by
  cases hv : ValueAsFloat64 val with
  | error e => simp [doubleConverter.ValidateAndConvert, hv] at h
  | ok q =>
    constructor
    · exact ⟨q, rfl, by simp [doubleConverter.ValidateAndConvert, hv]⟩
    · intro hpre
      cases hf : stats.first with
      | true => simp [doubleConverter.ValidateAndConvert, hv, hf]
      | false =>
        rcases hpre with hpre | hpre
        · rw [hf] at hpre; cases hpre
        · cases hmin : stats.minRealVal with
          | nan => exact absurd hmin hpre.1
          | finite a =>
            cases hmax : stats.maxRealVal with
            | nan => exact absurd hmax hpre.2
            | finite b =>
              simp [doubleConverter.ValidateAndConvert, hv, hf, hmin, hmax,
                goMinF64, goMaxF64]

/-- Closed instance of the NaN-safety theorem: an integer input succeeds with
a finite cell, and a NaN float64 input is rejected before the statistics. -/
theorem claim_C9_witness :
    ((⟨true⟩ : doubleConverter).ValidateAndConvert statsBuffer.init
      (some (.intVal 3)) exampleBuf).err = none ∧
    ((⟨true⟩ : doubleConverter).ValidateAndConvert statsBuffer.init
      (some (.intVal 3)) exampleBuf).buf = exampleBuf.WriteFloat64 (.finite 3) ∧
    ((⟨true⟩ : doubleConverter).ValidateAndConvert statsBuffer.init
      (some (.intVal 3)) exampleBuf).stats.minRealVal ≠ F64.nan ∧
    ((⟨true⟩ : doubleConverter).ValidateAndConvert statsBuffer.init
      (some (.float64V .nan)) exampleBuf).err =
      some (.cannotCoerce "float64 from NaN") := by
  have h := claim_C9_double_rejects_nan ⟨true⟩ statsBuffer.init (.intVal 3) exampleBuf
    (by decide)
  refine ⟨by decide, ?_, (h.2 (Or.inl rfl)).1, by decide⟩
  obtain ⟨q, hq, hbuf⟩ := h.1
  have : q = 3 := by
    have : ValueAsFloat64 (.intVal 3) = .ok 3 := by decide
    rw [this] at hq
    cases hq
    rfl
  rw [hbuf, this]

/-- Nat-wise reading of `ToBigEndian` recovers the value's low 128 bits. -/
theorem int128_fromBigEndianNat_toBigEndian (n : Int) :
    int128.fromBigEndianNat (int128.ToBigEndian n) = (n % 2 ^ 128).toNat := by
  simp only [int128.ToBigEndian, int128.fromBigEndianNat, List.foldl]
  rw [show ((2 : Int) ^ 128) = 340282366920938463463374607431768211456 from by norm_num]
  generalize hgen : (n % (340282366920938463463374607431768211456 : Int)).toNat = u
  have hu : u < 340282366920938463463374607431768211456 := by omega
  have step : ∀ m : Nat, u / 256 ^ (m + 1) * 256 + u / 256 ^ m % 256 = u / 256 ^ m := by
    intro m
    conv_rhs => rw [← Nat.div_add_mod (u / 256 ^ m) 256]
    rw [Nat.div_div_eq_div_mul, ← pow_succ]
    omega
  have h15 : u / 256 ^ 15 % 256 = u / 256 ^ 15 :=
    Nat.mod_eq_of_lt (Nat.div_lt_of_lt_mul (by norm_num at hu ⊢; omega))
  have e0 := step 0
  have e1 := step 1
  have e2 := step 2
  have e3 := step 3
  have e4 := step 4
  have e5 := step 5
  have e6 := step 6
  have e7 := step 7
  have e8 := step 8
  have e9 := step 9
  have e10 := step 10
  have e11 := step 11
  have e12 := step 12
  have e13 := step 13
  have e14 := step 14
  norm_num at e0 e1 e2 e3 e4 e5 e6 e7 e8 e9 e10 e11 e12 e13 e14 h15 ⊢
  omega

/-- Roundtrip of the 16-byte big-endian serialization on the 128-bit range:
decoding the stored fixed-length byte array cell recovers the value. -/
theorem int128_fromBigEndian_toBigEndian (n : Int)
    (h1 : -(2 ^ 127) ≤ n) (h2 : n < 2 ^ 127) :
    int128.fromBigEndian (int128.ToBigEndian n) = n := by
  simp only [int128.fromBigEndian]
  rw [int128_fromBigEndianNat_toBigEndian]
  rw [show ((2 : Int) ^ 128) = 340282366920938463463374607431768211456 from by norm_num]
  split <;> omega

/-- ToInt64 is the identity on values representable as a signed 64-bit
integer. -/
theorem int128_ToInt64_of_int64_range (n : Int) (h1 : -(2 ^ 63) ≤ n) (h2 : n < 2 ^ 63) :
    int128.ToInt64 n = n := by
  simp only [int128.ToInt64]
  rw [show ((2 : Int) ^ 64) = 18446744073709551616 from by norm_num]
  split <;> omega

/-- Go's `int32` conversion is the identity on values representable as a
signed 32-bit integer. -/
theorem int128_toInt32Wrap_of_int32_range (n : Int) (h1 : -(2 ^ 31) ≤ n) (h2 : n < 2 ^ 31) :
    int128.toInt32Wrap n = n := by
  simp only [int128.toInt32Wrap]
  rw [show ((2 : Int) ^ 32) = 4294967296 from by norm_num]
  split <;> omega

/-- Counterexample to C4 as stated (for every Int128 value): at `v = 2^63`
the generic buffer's fixed-length byte array cell decodes to `2^63`, while
`int64Buffer.WriteInt128` stores `ToInt64 v = -2^63`, so the two buffers'
observable matrices differ. -/
theorem claim_C4_counterexample :
    logicalIntValue (CellValue.fixedLenByteArrayCell (int128.ToBigEndian (2 ^ 63))) =
      some (2 ^ 63) ∧
    logicalIntValue (CellValue.int64Cell (int128.ToInt64 (2 ^ 63))) = some (-(2 ^ 63)) ∧
    ((TBuf.mk .int64buf exampleBuf.impl).WriteInt128 (2 ^ 63)).impl.matrix.map
        logicalIntValue ≠
      ((TBuf.mk .generic exampleBuf.impl).WriteInt128 (2 ^ 63)).impl.matrix.map
        logicalIntValue := by
  refine ⟨by decide, by decide, by decide⟩

/-- C4 (amended): for every Int128 value that fits the narrow buffer's
declared width — the int64 range for `int64Buffer.WriteInt128`, the int32
range for `int32Buffer.WriteInt128` — and every buffer state, the narrow
write stores a cell whose externally observable logical value equals the one
the generic `typedBufferImpl.WriteInt128` stores, at the same position and
with the same cursor advance; only the stored representation width differs. -/
theorem claim_C4_narrow_buffer_refinement (v : int128.Num) (impl : typedBufferImpl) :
    (-(2 ^ 63) ≤ v → v < 2 ^ 63 →
      ((TBuf.mk .int64buf impl).WriteInt128 v).impl.matrix.map logicalIntValue =
        ((TBuf.mk .generic impl).WriteInt128 v).impl.matrix.map logicalIntValue ∧
      ((TBuf.mk .int64buf impl).WriteInt128 v).impl.currentRow =
        ((TBuf.mk .generic impl).WriteInt128 v).impl.currentRow)
    ∧ (-(2 ^ 31) ≤ v → v < 2 ^ 31 →
      ((TBuf.mk .int32buf impl).WriteInt128 v).impl.matrix.map logicalIntValue =
        ((TBuf.mk .generic impl).WriteInt128 v).impl.matrix.map logicalIntValue ∧
      ((TBuf.mk .int32buf impl).WriteInt128 v).impl.currentRow =
        ((TBuf.mk .generic impl).WriteInt128 v).impl.currentRow) := by
  constructor
  · intro ha hb
    have hwide1 : -(2 ^ 127) ≤ v := le_trans (by norm_num) ha
    have hwide2 : v < 2 ^ 127 := lt_trans hb (by norm_num)
    have e1 : logicalIntValue (.int64Cell (int128.ToInt64 v)) = some v := by
      simp [logicalIntValue, int128_ToInt64_of_int64_range v ha hb]
    have e2 : logicalIntValue (.fixedLenByteArrayCell (int128.ToBigEndian v)) = some v := by
      simp [logicalIntValue, int128_fromBigEndian_toBigEndian v hwide1 hwide2]
    constructor
    · simp [TBuf.WriteInt128, typedBufferImpl.WriteValue, List.map_set, e1, e2]
    · rfl
  · intro ha hb
    have hwide1 : -(2 ^ 127) ≤ v := le_trans (by norm_num) ha
    have hwide2 : v < 2 ^ 127 := lt_trans hb (by norm_num)
    have h64a : -(2 ^ 63) ≤ v := le_trans (by norm_num) ha
    have h64b : v < 2 ^ 63 := lt_trans hb (by norm_num)
    have e1 : logicalIntValue (.int32Cell (int128.toInt32Wrap (int128.ToInt64 v))) = some v := by
      rw [int128_ToInt64_of_int64_range v h64a h64b]
      simp [logicalIntValue, int128_toInt32Wrap_of_int32_range v ha hb]
    have e2 : logicalIntValue (.fixedLenByteArrayCell (int128.ToBigEndian v)) = some v := by
      simp [logicalIntValue, int128_fromBigEndian_toBigEndian v hwide1 hwide2]
    constructor
    · simp [TBuf.WriteInt128, typedBufferImpl.WriteValue, List.map_set, e1, e2]
    · rfl

/-- Closed instance of the amended narrow-buffer theorem at `v = 7`: both the
narrow and the generic stores decode to 7. -/
theorem claim_C4_witness :
    -(2 ^ 63) ≤ (7 : Int) ∧ (7 : Int) < 2 ^ 63 ∧
    ((TBuf.mk .int64buf exampleBuf.impl).WriteInt128 7).impl.matrix.map logicalIntValue =
      ((TBuf.mk .generic exampleBuf.impl).WriteInt128 7).impl.matrix.map logicalIntValue ∧
    logicalIntValue (CellValue.int64Cell (int128.ToInt64 7)) = some 7 := by
  have h := (claim_C4_narrow_buffer_refinement 7 exampleBuf.impl).1 (by decide) (by decide)
  exact ⟨by decide, by decide, h.1, by decide⟩

/-- C7: for every non-null byte-coercible input to the binary/string
converter: a value longer than `maxLength` fails with a "value too long"
error naming both the actual and the maximum length; otherwise, when UTF-8 is
required and the bytes are not valid UTF-8, it fails with "invalid UTF8"; in
both failure cases nothing is written; only a value passing both checks is
written and counted in statistics. -/
theorem claim_C7_binary_length_utf8 (c : binaryConverter) (stats : statsBuffer)
    (buf : TBuf) (val : RuntimeValue) (bs : List Nat)
    (h : ValueAsBytes val = .ok bs) :
    (bs.length > c.maxLength →
      c.ValidateAndConvert stats (some val) buf =
        { err := some (.valueTooLong bs.length c.maxLength), stats := stats, buf := buf } ∧
      SFErr.render (.valueTooLong bs.length c.maxLength) =
        "value too long, length: " ++ toString bs.length ++ ", max: " ++ toString c.maxLength)
    ∧ (bs.length ≤ c.maxLength → c.utf8 = true → utf8Valid bs = false →
      c.ValidateAndConvert stats (some val) buf =
        { err := some .invalidUTF8, stats := stats, buf := buf })
    ∧ (bs.length ≤ c.maxLength → (c.utf8 = true → utf8Valid bs = true) →
      (c.ValidateAndConvert stats (some val) buf).err = none ∧
      (c.ValidateAndConvert stats (some val) buf).buf = buf.WriteBytes bs) := by
  refine ⟨?_, ?_, ?_⟩
  · intro hlen
    exact ⟨by simp [binaryConverter.ValidateAndConvert, h, hlen], rfl⟩
  · intro hlen hu hv
    have hlen' : ¬ bs.length > c.maxLength := by omega
    simp [binaryConverter.ValidateAndConvert, h, hlen', hu, hv]
  · intro hlen hok
    have hlen' : ¬ bs.length > c.maxLength := by omega
    have hgate : (c.utf8 && !utf8Valid bs) = false := by
      cases hcu : c.utf8 with
      | false => simp
      | true => simp [hok hcu]
    constructor <;>
      simp [binaryConverter.ValidateAndConvert, h, hlen', hgate]

/-- Closed instance of the binary-converter theorem, the spec's scenario:
maxLength 3 with UTF-8 required on inputs ["ab", "abcd"]: the first write
succeeds, the run fails on the second with the error naming length 4 and max
3 (rendered exactly as the Go message), and the statistics after the batch
reflect only the first value (no nulls, maxStrLen 2). -/
theorem claim_C7_witness :
    ValueAsBytes (.str "ab") = .ok [97, 98] ∧
    ((⟨false, 3, true⟩ : binaryConverter).ValidateAndConvert statsBuffer.init
      (some (.str "ab")) exampleBuf).err = none ∧
    (runRows ((⟨false, 3, true⟩ : binaryConverter).ValidateAndConvert)
      statsBuffer.init exampleBuf [some (.str "ab"), some (.str "abcd")]).err =
      some (.valueTooLong 4 3) ∧
    SFErr.render (.valueTooLong 4 3) = "value too long, length: 4, max: 3" ∧
    (runRows ((⟨false, 3, true⟩ : binaryConverter).ValidateAndConvert)
      statsBuffer.init exampleBuf [some (.str "ab"), some (.str "abcd")]).stats.nullCount = 0 ∧
    (runRows ((⟨false, 3, true⟩ : binaryConverter).ValidateAndConvert)
      statsBuffer.init exampleBuf [some (.str "ab"), some (.str "abcd")]).stats.maxStrLen = 2 ∧
    (runRows ((⟨false, 3, true⟩ : binaryConverter).ValidateAndConvert)
      statsBuffer.init exampleBuf [some (.str "ab"), some (.str "abcd")]).stats.minStrVal =
      [97, 98] := by
  have h := (claim_C7_binary_length_utf8 ⟨false, 3, true⟩ statsBuffer.init exampleBuf
    (.str "ab") [97, 98] (by decide)).2.2 (by decide) (fun _ => by decide)
  exact ⟨by decide, h.1, by decide, by decide, by decide, by decide, by decide⟩

/-- Counterexample to C8 as stated: the empty string is a string input that
does not parse as a timestamp, yet the converter returns no parse error — the
`s != ""` guard skips parsing entirely and the zero time is encoded
successfully. -/
theorem claim_C8_counterexample :
    parseInLocation "" 0 = none ∧
    ((⟨false, 0, 38, false, false, 0⟩ : timestampConverter).ValidateAndConvert
      statsBuffer.init (some (.str "")) exampleBuf).err = none ∧
    ((⟨false, 0, 38, false, false, 0⟩ : timestampConverter).ValidateAndConvert
      statsBuffer.init (some (.str "")) exampleBuf).buf =
      exampleBuf.WriteInt128 (-62135596800) := by
  refine ⟨rfl, by decide, by decide⟩

/-- C8 (amended): for every non-null, non-empty string (or byte-sequence)
input to the timestamp converter, the input is parsed as an extended ISO-8601
timestamp with nanoseconds, interpreted in the configured default location
when the string carries no zone; the converter returns the parse error naming
the offending input exactly when the string does not parse; and when the
trim-timezone flag is set the parsed time is normalized to UTC before
encoding. An empty input bypasses parsing (the counterexample) and encodes
the zero time. -/
theorem claim_C8_timestamp_parse (c : timestampConverter) (stats : statsBuffer)
    (buf : TBuf) (s : String) (hs : s ≠ "") :
    (parseInLocation s c.defaultTZ = none ↔
      (c.ValidateAndConvert stats (some (.str s)) buf).err = some (.timestampParse s))
    ∧ (∀ t1, parseInLocation s c.defaultTZ = some t1 → c.trimTZ = true →
        (c.ValidateAndConvert stats (some (.str s)) buf).err = none →
        (c.ValidateAndConvert stats (some (.str s)) buf).buf =
          buf.WriteInt128 (snowflakeTimestampInt t1.UTC c.scale c.includeTZ))
    ∧ (∀ y mo d hh mi se ns,
        parseRFC3339Parts s.data = some (y, mo, d, hh, mi, se, ns, none) →
        ∃ t1, parseInLocation s c.defaultTZ = some t1 ∧ t1.offset = c.defaultTZ)
    ∧ (∀ bs : List Nat, stringOfBytes bs = s →
        c.ValidateAndConvert stats (some (.bytes bs)) buf =
          c.ValidateAndConvert stats (some (.str s)) buf) := by
  refine ⟨⟨?_, ?_⟩, ?_, ?_, ?_⟩
  · intro hp
    simp [timestampConverter.ValidateAndConvert, timestampConverter.parseStage, hs, hp]
  · intro herr
    cases hp : parseInLocation s c.defaultTZ with
    | none => rfl
    | some t1 =>
      exfalso
      simp only [timestampConverter.ValidateAndConvert, timestampConverter.parseStage,
        if_pos hs, hp] at herr
      by_cases hf : (!int128.FitsInPrecision
          (snowflakeTimestampInt (if c.trimTZ then t1.UTC else t1) c.scale c.includeTZ)
          c.precision) = true
      · simp [timestampConverter.encodeStage, hf] at herr
      · simp [timestampConverter.encodeStage, hf] at herr
  · intro t1 hp htrim herr
    simp only [timestampConverter.ValidateAndConvert, timestampConverter.parseStage,
      if_pos hs, hp] at herr ⊢
    by_cases hf : (!int128.FitsInPrecision
        (snowflakeTimestampInt (if c.trimTZ then t1.UTC else t1) c.scale c.includeTZ)
        c.precision) = true
    · simp [timestampConverter.encodeStage, hf] at herr
    · have hft : int128.FitsInPrecision
          (snowflakeTimestampInt (if c.trimTZ then t1.UTC else t1) c.scale c.includeTZ)
          c.precision = true := by
        simpa using hf
      simp only [htrim, if_true] at hft
      simp [timestampConverter.encodeStage, htrim, hft]
  · intro y mo d hh mi se ns hparts
    refine ⟨{ sec := daysFromCivil y mo d * 86400 + hh * 3600 + mi * 60 + se - c.defaultTZ,
              nsec := ns, offset := c.defaultTZ }, ?_, rfl⟩
    simp [parseInLocation, hparts]
  · intro bs hbs
    simp only [timestampConverter.ValidateAndConvert, hbs]

/-- Closed instance of the amended timestamp theorem: a well-formed zoneless
timestamp string parses in the default location (offset 3600 seconds) and,
with the trim flag set, encodes the UTC-normalized instant; a malformed
string yields the parse error naming it. -/
theorem claim_C8_witness :
    ("2024-01-02T03:04:05" ≠ "") ∧
    parseInLocation "2024-01-02T03:04:05" 3600 =
      some { sec := 1704161045, nsec := 0, offset := 3600 } ∧
    ((⟨false, 0, 38, false, true, 3600⟩ : timestampConverter).ValidateAndConvert
      statsBuffer.init (some (.str "2024-01-02T03:04:05")) exampleBuf).err = none ∧
    ((⟨false, 0, 38, false, true, 3600⟩ : timestampConverter).ValidateAndConvert
      statsBuffer.init (some (.str "2024-01-02T03:04:05")) exampleBuf).buf =
      exampleBuf.WriteInt128
        (snowflakeTimestampInt
          (TimeVal.UTC { sec := 1704161045, nsec := 0, offset := 3600 }) 0 false) ∧
    ((⟨false, 0, 38, false, true, 3600⟩ : timestampConverter).ValidateAndConvert
      statsBuffer.init (some (.str "nonsense")) exampleBuf).err =
      some (.timestampParse "nonsense") := by
  have h := claim_C8_timestamp_parse (⟨false, 0, 38, false, true, 3600⟩ : timestampConverter)
    statsBuffer.init exampleBuf "2024-01-02T03:04:05" (by decide)
  have hbad := (claim_C8_timestamp_parse (⟨false, 0, 38, false, true, 3600⟩ : timestampConverter)
    statsBuffer.init exampleBuf "nonsense" (by decide)).1.mp (by decide)
  refine ⟨by decide, by decide, by decide, ?_, hbad⟩
  exact h.2.1 { sec := 1704161045, nsec := 0, offset := 3600 } (by decide) rfl (by decide)

/-- A left fold of `min` lands on a member of the fold's inputs. -/
theorem foldl_min_mem {α : Type} [LinearOrder α] (v : α) (vs : List α) :
    vs.foldl min v ∈ v :: vs := by
  induction vs generalizing v with
  | nil => simp
  | cons x xs ih =>
    simp only [List.foldl_cons]
    rcases List.mem_cons.mp (ih (min v x)) with h | h
    · rcases min_choice v x with he | he
      · exact List.mem_cons.mpr (Or.inl (h.trans he))
      · exact List.mem_cons.mpr (Or.inr (List.mem_cons.mpr (Or.inl (h.trans he))))
    · exact List.mem_cons.mpr (Or.inr (List.mem_cons.mpr (Or.inr h)))

/-- A left fold of `min` bounds every input from below. -/
theorem foldl_min_le {α : Type} [LinearOrder α] (v : α) (vs : List α) :
    ∀ x ∈ v :: vs, vs.foldl min v ≤ x := by
  induction vs generalizing v with
  | nil =>
    intro x hx
    simp at hx
    simp [hx]
  | cons y ys ih =>
    intro x hx
    simp only [List.foldl_cons]
    have hhead := ih (min v y) (min v y) (by simp)
    simp only [List.mem_cons] at hx
    rcases hx with rfl | rfl | hx
    · exact le_trans hhead (min_le_left _ _)
    · exact le_trans hhead (min_le_right _ _)
    · exact ih (min v y) x (by simp [hx])

/-- A left fold of `max` lands on a member of the fold's inputs. -/
theorem foldl_max_mem {α : Type} [LinearOrder α] (v : α) (vs : List α) :
    vs.foldl max v ∈ v :: vs := by
  induction vs generalizing v with
  | nil => simp
  | cons x xs ih =>
    simp only [List.foldl_cons]
    rcases List.mem_cons.mp (ih (max v x)) with h | h
    · rcases max_choice v x with he | he
      · exact List.mem_cons.mpr (Or.inl (h.trans he))
      · exact List.mem_cons.mpr (Or.inr (List.mem_cons.mpr (Or.inl (h.trans he))))
    · exact List.mem_cons.mpr (Or.inr (List.mem_cons.mpr (Or.inr h)))

/-- A left fold of `max` bounds every input from above. -/
theorem foldl_max_le {α : Type} [LinearOrder α] (v : α) (vs : List α) :
    ∀ x ∈ v :: vs, x ≤ vs.foldl max v := by
  induction vs generalizing v with
  | nil =>
    intro x hx
    simp at hx
    simp [hx]
  | cons y ys ih =>
    intro x hx
    simp only [List.foldl_cons]
    have hhead := ih (max v y) (max v y) (by simp)
    simp only [List.mem_cons] at hx
    rcases hx with rfl | rfl | hx
    · exact le_trans (le_max_left _ _) hhead
    · exact le_trans (le_max_right _ _) hhead
    · exact ih (max v y) x (by simp [hx])

/-- Invariant of `runRows` for one statistics family, abstract in the family's
value type, accumulator getters and total-order step functions: given that a
successful null step only increments `nullCount` and a successful value step
converts its input and updates the pair of aggregates (initializing on the
first value, combining via `mn`/`mx` after), a successful run counts exactly
the nulls, leaves the aggregates untouched when no value was accepted, folds
`mn`/`mx` over the accepted values from the first one when the buffer starts
fresh, and folds from the incoming aggregates when it does not. -/
theorem runRows_stats_invariant {α : Type} (mn mx : α → α → α)
    (step : statsBuffer → Option RuntimeValue → TBuf → ConvResult)
    (conv : RuntimeValue → Option α)
    (getMin getMax : statsBuffer → α)
    (Hnull : ∀ (stats : statsBuffer) (buf : TBuf), (step stats none buf).err = none →
      getMin (step stats none buf).stats = getMin stats ∧
      getMax (step stats none buf).stats = getMax stats ∧
      (step stats none buf).stats.first = stats.first ∧
      (step stats none buf).stats.nullCount = stats.nullCount + 1)
    (Hval : ∀ (stats : statsBuffer) (v : RuntimeValue) (buf : TBuf),
      (step stats (some v) buf).err = none →
      ∃ w, conv v = some w ∧
        (step stats (some v) buf).stats.first = false ∧
        (step stats (some v) buf).stats.nullCount = stats.nullCount ∧
        (stats.first = true →
          getMin (step stats (some v) buf).stats = w ∧
          getMax (step stats (some v) buf).stats = w) ∧
        (stats.first = false →
          getMin (step stats (some v) buf).stats = mn (getMin stats) w ∧
          getMax (step stats (some v) buf).stats = mx (getMax stats) w)) :
    ∀ (l : List (Option RuntimeValue)) (stats : statsBuffer) (buf : TBuf),
      (runRows step stats buf l).err = none →
      ((runRows step stats buf l).stats.nullCount =
        stats.nullCount + (countNulls l : Int))
      ∧ ((l.filterMap fun ov => ov.bind conv) = [] →
          (runRows step stats buf l).stats.first = stats.first ∧
          getMin (runRows step stats buf l).stats = getMin stats ∧
          getMax (runRows step stats buf l).stats = getMax stats)
      ∧ (∀ w ws, (l.filterMap fun ov => ov.bind conv) = w :: ws → stats.first = true →
          (runRows step stats buf l).stats.first = false ∧
          getMin (runRows step stats buf l).stats = ws.foldl mn w ∧
          getMax (runRows step stats buf l).stats = ws.foldl mx w)
      ∧ (stats.first = false →
          (runRows step stats buf l).stats.first = false ∧
          getMin (runRows step stats buf l).stats =
            ((l.filterMap fun ov => ov.bind conv)).foldl mn (getMin stats) ∧
          getMax (runRows step stats buf l).stats =
            ((l.filterMap fun ov => ov.bind conv)).foldl mx (getMax stats)) := by
  intro l
  induction l with
  | nil =>
    intro stats buf _
    refine ⟨by simp [runRows, countNulls], by simp [runRows], ?_, by simp [runRows]⟩
    intro w ws hczero
    simp at hczero
  | cons ov rest ih =>
    intro stats buf h
    cases hse : (step stats ov buf).err with
    | some e =>
      exfalso
      simp only [runRows, hse] at h
      cases h
    | none =>
      have hrun : runRows step stats buf (ov :: rest) =
          runRows step (step stats ov buf).stats (step stats ov buf).buf rest := by
        simp only [runRows, hse]
      rw [hrun] at h ⊢
      have ihh := ih (step stats ov buf).stats (step stats ov buf).buf h
      cases ov with
      | none =>
        obtain ⟨hm1, hm2, hfirst, hnc⟩ := Hnull stats buf hse
        have hfm : ((none :: rest : List (Option RuntimeValue)).filterMap
            fun ov => ov.bind conv) = rest.filterMap fun ov => ov.bind conv := by simp
        have hcount : countNulls (none :: rest) = countNulls rest + 1 := by
          simp [countNulls]
        refine ⟨?_, ?_, ?_, ?_⟩
        · rw [ihh.1, hnc, hcount]
          push_cast
          ring
        · intro hempty
          rw [hfm] at hempty
          obtain ⟨e1, e2, e3⟩ := ihh.2.1 hempty
          exact ⟨by rw [e1, hfirst], by rw [e2, hm1], by rw [e3, hm2]⟩
        · intro w ws hcons hfi
          rw [hfm] at hcons
          exact ihh.2.2.1 w ws hcons (by rw [hfirst, hfi])
        · intro hfi
          have hstep := ihh.2.2.2 (by rw [hfirst, hfi])
          rw [hfm]
          exact ⟨hstep.1, by rw [hstep.2.1, hm1], by rw [hstep.2.2, hm2]⟩
      | some v =>
        obtain ⟨w, hw, hfirst', hnc, hft, hff⟩ := Hval stats v buf hse
        have hfm : ((some v :: rest : List (Option RuntimeValue)).filterMap
            fun ov => ov.bind conv) = w :: (rest.filterMap fun ov => ov.bind conv) := by
          simp [hw]
        have hcount : countNulls (some v :: rest) = countNulls rest := by
          simp [countNulls]
        have h4 := ihh.2.2.2 hfirst'
        cases hf : stats.first with
        | true =>
          obtain ⟨hw1, hw2⟩ := hft hf
          refine ⟨?_, ?_, ?_, ?_⟩
          · rw [ihh.1, hnc, hcount]
          · intro hempty
            rw [hfm] at hempty
            cases hempty
          · intro w' ws' hcons _
            rw [hfm] at hcons
            injection hcons with hcw hcs
            subst hcw
            subst hcs
            exact ⟨h4.1, by rw [h4.2.1, hw1], by rw [h4.2.2, hw2]⟩
          · intro hfi
            exact Bool.noConfusion hfi
        | false =>
          obtain ⟨hw1, hw2⟩ := hff hf
          refine ⟨?_, ?_, ?_, ?_⟩
          · rw [ihh.1, hnc, hcount]
          · intro hempty
            rw [hfm] at hempty
            cases hempty
          · intro w' ws' hcons hfi
            exact Bool.noConfusion hfi
          · intro _
            rw [hfm]
            simp only [List.foldl_cons]
            exact ⟨h4.1, by rw [h4.2.1, hw1], by rw [h4.2.2, hw2]⟩

/-- Reflexivity of the byte comparison. -/
theorem bytesCompare_refl (a : List Nat) : bytesCompare a a = .eq := by
  induction a with
  | nil => rfl
  | cons x xs ih => simp [bytesCompare, ih]

/-- Nat comparison answers characterize equality. -/
theorem bytesCompare_eq_iff : ∀ (a b : List Nat), bytesCompare a b = .eq ↔ a = b := by
  intro a
  induction a with
  | nil =>
    intro b
    cases b <;> simp [bytesCompare]
  | cons x xs ih =>
    intro b
    cases b with
    | nil => simp [bytesCompare]
    | cons y ys =>
      simp only [bytesCompare]
      by_cases hxy : x < y
      · simp only [if_pos hxy]
        constructor
        · intro h; cases h
        · intro h
          injection h with h1 _
          omega
      · by_cases hyx : y < x
        · simp only [if_neg hxy, if_pos hyx]
          constructor
          · intro h; cases h
          · intro h
            injection h with h1 _
            omega
        · have hxe : x = y := by omega
          subst hxe
          simp [hxy, hyx, ih ys]

/-- Swapping the arguments of the byte comparison swaps the answer. -/
theorem bytesCompare_swap : ∀ (a b : List Nat),
    bytesCompare b a = (bytesCompare a b).swap := by
  intro a
  induction a with
  | nil => intro b; cases b <;> rfl
  | cons x xs ih =>
    intro b
    cases b with
    | nil => rfl
    | cons y ys =>
      simp only [bytesCompare]
      rcases Nat.lt_trichotomy x y with h | h | h
      · simp [h, Nat.lt_asymm h, Ordering.swap]
      · subst h
        simp [Nat.lt_irrefl, ih ys]
      · simp [h, Nat.lt_asymm h, Ordering.swap]

/-- Transitivity of the strict byte-lexicographic order. -/
theorem bytesCompare_lt_trans : ∀ (a b c : List Nat),
    bytesCompare a b = .lt → bytesCompare b c = .lt → bytesCompare a c = .lt := by
  intro a
  induction a with
  | nil =>
    intro b c h1 h2
    cases c with
    | nil =>
      cases b with
      | nil => cases h1
      | cons _ _ => cases h2
    | cons z zs => rfl
  | cons x xs ih =>
    intro b c h1 h2
    cases b with
    | nil => cases h1
    | cons y ys =>
      cases c with
      | nil => cases h2
      | cons z zs =>
        simp only [bytesCompare] at h1 h2 ⊢
        by_cases hxy : x < y
        · by_cases hyz : y < z
          · simp [Nat.lt_trans hxy hyz]
          · by_cases hzy : z < y
            · simp [hyz, hzy] at h2
            · have : y = z := by omega
              subst this
              simp [hxy]
        · by_cases hyx : y < x
          · simp [hxy, hyx] at h1
          · have : x = y := by omega
            subst this
            simp only [if_neg hxy, if_neg hyx] at h1
            by_cases hyz : x < z
            · simp [hyz]
            · by_cases hzy : z < x
              · simp [hyz, hzy] at h2
              · have : x = z := by omega
                subst this
                simp only [if_neg hyz, if_neg hzy] at h2 ⊢
                exact ih ys zs h1 h2

/-- The byte order is reflexive. -/
theorem bytesLe_refl (a : List Nat) : bytesLe a a := by
  unfold bytesLe
  rw [bytesCompare_refl]
  intro h
  cases h

/-- The byte order is transitive. -/
theorem bytesLe_trans {a b c : List Nat} (h1 : bytesLe a b) (h2 : bytesLe b c) :
    bytesLe a c := by
  unfold bytesLe at h1 h2 ⊢
  rcases hab : bytesCompare a b with _ | _ | _
  · rcases hbc : bytesCompare b c with _ | _ | _
    · rw [bytesCompare_lt_trans a b c hab hbc]
      intro h
      cases h
    · have hbe : b = c := (bytesCompare_eq_iff b c).mp hbc
      subst hbe
      rw [hab]
      intro h
      cases h
    · exact absurd hbc h2
  · have hae : a = b := (bytesCompare_eq_iff a b).mp hab
    subst hae
    exact h2
  · exact absurd hab h1

/-- The min-update step stays below the accumulator. -/
theorem bMinStep_le_left (acc w : List Nat) : bytesLe (bMinStep acc w) acc := by
  unfold bMinStep
  split
  · next h =>
    unfold bytesLe
    rw [h]
    intro hc
    cases hc
  · exact bytesLe_refl acc

/-- The min-update step stays below the new value. -/
theorem bMinStep_le_right (acc w : List Nat) : bytesLe (bMinStep acc w) w := by
  unfold bMinStep
  split
  · exact bytesLe_refl w
  · next h =>
    unfold bytesLe
    rw [bytesCompare_swap w acc]
    rcases hc : bytesCompare w acc with _ | _ | _
    · exact absurd hc h
    · simp [Ordering.swap]
    · simp [Ordering.swap]

/-- The max-update step stays above the accumulator. -/
theorem bMaxStep_ge_left (acc w : List Nat) : bytesLe acc (bMaxStep acc w) := by
  unfold bMaxStep
  split
  · next h =>
    unfold bytesLe
    rw [bytesCompare_swap w acc, h]
    simp [Ordering.swap]
  · exact bytesLe_refl acc

/-- The max-update step stays above the new value. -/
theorem bMaxStep_ge_right (acc w : List Nat) : bytesLe w (bMaxStep acc w) := by
  unfold bMaxStep
  split
  · exact bytesLe_refl w
  · next h =>
    unfold bytesLe
    exact h

/-- A fold of the byte min-update lands on a member of its inputs. -/
theorem foldl_bMin_mem (v : List Nat) (vs : List (List Nat)) :
    vs.foldl bMinStep v ∈ v :: vs := by
  induction vs generalizing v with
  | nil => simp
  | cons x xs ih =>
    simp only [List.foldl_cons]
    rcases List.mem_cons.mp (ih (bMinStep v x)) with h | h
    · by_cases hc : bytesCompare x v = Ordering.lt
      · have he : bMinStep v x = x := by unfold bMinStep; rw [if_pos hc]
        rw [he] at h ⊢
        exact List.mem_cons.mpr (Or.inr (List.mem_cons.mpr (Or.inl h)))
      · have he : bMinStep v x = v := by unfold bMinStep; rw [if_neg hc]
        rw [he] at h ⊢
        exact List.mem_cons.mpr (Or.inl h)
    · exact List.mem_cons.mpr (Or.inr (List.mem_cons.mpr (Or.inr h)))

/-- A fold of the byte min-update bounds every input from below. -/
theorem foldl_bMin_le (v : List Nat) (vs : List (List Nat)) :
    ∀ x ∈ v :: vs, bytesLe (vs.foldl bMinStep v) x := by
  induction vs generalizing v with
  | nil =>
    intro x hx
    simp at hx
    subst hx
    exact bytesLe_refl x
  | cons y ys ih =>
    intro x hx
    simp only [List.foldl_cons]
    have hhead := ih (bMinStep v y) (bMinStep v y) (by simp)
    rcases List.mem_cons.mp hx with rfl | hx'
    · exact bytesLe_trans hhead (bMinStep_le_left x y)
    · rcases List.mem_cons.mp hx' with rfl | hx''
      · exact bytesLe_trans hhead (bMinStep_le_right v x)
      · exact ih (bMinStep v y) x (List.mem_cons.mpr (Or.inr hx''))

/-- A fold of the byte max-update lands on a member of its inputs. -/
theorem foldl_bMax_mem (v : List Nat) (vs : List (List Nat)) :
    vs.foldl bMaxStep v ∈ v :: vs := by
  induction vs generalizing v with
  | nil => simp
  | cons x xs ih =>
    simp only [List.foldl_cons]
    rcases List.mem_cons.mp (ih (bMaxStep v x)) with h | h
    · by_cases hc : bytesCompare x v = Ordering.gt
      · have he : bMaxStep v x = x := by unfold bMaxStep; rw [if_pos hc]
        rw [he] at h ⊢
        exact List.mem_cons.mpr (Or.inr (List.mem_cons.mpr (Or.inl h)))
      · have he : bMaxStep v x = v := by unfold bMaxStep; rw [if_neg hc]
        rw [he] at h ⊢
        exact List.mem_cons.mpr (Or.inl h)
    · exact List.mem_cons.mpr (Or.inr (List.mem_cons.mpr (Or.inr h)))

/-- A fold of the byte max-update bounds every input from above. -/
theorem foldl_bMax_le (v : List Nat) (vs : List (List Nat)) :
    ∀ x ∈ v :: vs, bytesLe x (vs.foldl bMaxStep v) := by
  induction vs generalizing v with
  | nil =>
    intro x hx
    simp at hx
    subst hx
    exact bytesLe_refl x
  | cons y ys ih =>
    intro x hx
    simp only [List.foldl_cons]
    have hhead := ih (bMaxStep v y) (bMaxStep v y) (by simp)
    rcases List.mem_cons.mp hx with rfl | hx'
    · exact bytesLe_trans (bMaxStep_ge_left x y) hhead
    · rcases List.mem_cons.mp hx' with rfl | hx''
      · exact bytesLe_trans (bMaxStep_ge_right v x) hhead
      · exact ih (bMaxStep v y) x (List.mem_cons.mpr (Or.inr hx''))

/-- Folding Go's float64 min over finite floats is the rational fold. -/
theorem foldl_goMin_map (q : ℚ) (qs : List ℚ) :
    (qs.map F64.finite).foldl goMinF64 (.finite q) = .finite (qs.foldl min q) := by
  induction qs generalizing q with
  | nil => rfl
  | cons x xs ih => simp [goMinF64, ih]

/-- Folding Go's float64 max over finite floats is the rational fold. -/
theorem foldl_goMax_map (q : ℚ) (qs : List ℚ) :
    (qs.map F64.finite).foldl goMaxF64 (.finite q) = .finite (qs.foldl max q) := by
  induction qs generalizing q with
  | nil => rfl
  | cons x xs ih => simp [goMaxF64, ih]

/-- A filterMap whose extractor post-composes a total map factors through the
map of the plain filterMap. -/
theorem filterMap_bind_map {β γ : Type} (f : RuntimeValue → Option β) (g : β → γ) :
    ∀ l : List (Option RuntimeValue),
      (l.filterMap fun ov => ov.bind fun v => (f v).map g) =
        (l.filterMap fun ov => ov.bind f).map g := by
  intro l
  induction l with
  | nil => rfl
  | cons ov rest ih =>
    cases ov with
    | none => simpa [List.filterMap_cons] using ih
    | some v =>
      cases hv : f v with
      | none => simpa [List.filterMap_cons, hv] using ih
      | some w => simpa [List.filterMap_cons, hv] using ih

/-- The accepted finite-float cells of a run are the coerced rationals. -/
theorem filterMap_float_eq (l : List (Option RuntimeValue)) :
    (l.filterMap fun ov => ov.bind fun v => ((ValueAsFloat64 v).toOption).map F64.finite) =
      (convertedQs l).map F64.finite :=
  filterMap_bind_map (fun v => (ValueAsFloat64 v).toOption) F64.finite l

/-- The accepted byte lengths of a run are the lengths of the accepted byte
values. -/
theorem filterMap_len_eq (l : List (Option RuntimeValue)) :
    (l.filterMap fun ov => ov.bind fun v => ((ValueAsBytes v).toOption).map List.length) =
      (convertedBytes l).map List.length :=
  filterMap_bind_map (fun v => (ValueAsBytes v).toOption) List.length l

/-- Null-step obligation of the statistics invariant for the number
converter. -/
theorem numberConverter_Hnull (c : numberConverter) :
    ∀ (stats : statsBuffer) (buf : TBuf),
      (c.ValidateAndConvert stats none buf).err = none →
      (c.ValidateAndConvert stats none buf).stats.minIntVal = stats.minIntVal ∧
      (c.ValidateAndConvert stats none buf).stats.maxIntVal = stats.maxIntVal ∧
      (c.ValidateAndConvert stats none buf).stats.first = stats.first ∧
      (c.ValidateAndConvert stats none buf).stats.nullCount = stats.nullCount + 1 := by
  intro stats buf h
  cases hn : c.nullable with
  | false => simp [numberConverter.ValidateAndConvert, hn] at h
  | true => simp [numberConverter.ValidateAndConvert, hn]

/-- Value-step obligation of the statistics invariant for the number
converter. -/
theorem numberConverter_Hval (c : numberConverter) :
    ∀ (stats : statsBuffer) (v : RuntimeValue) (buf : TBuf),
      (c.ValidateAndConvert stats (some v) buf).err = none →
      ∃ w, (c.convert v).toOption = some w ∧
        (c.ValidateAndConvert stats (some v) buf).stats.first = false ∧
        (c.ValidateAndConvert stats (some v) buf).stats.nullCount = stats.nullCount ∧
        (stats.first = true →
          (c.ValidateAndConvert stats (some v) buf).stats.minIntVal = w ∧
          (c.ValidateAndConvert stats (some v) buf).stats.maxIntVal = w) ∧
        (stats.first = false →
          (c.ValidateAndConvert stats (some v) buf).stats.minIntVal =
            min stats.minIntVal w ∧
          (c.ValidateAndConvert stats (some v) buf).stats.maxIntVal =
            max stats.maxIntVal w) := by
  intro stats v buf h
  cases hcv : c.convert v with
  | error e => simp [numberConverter.ValidateAndConvert, hcv] at h
  | ok w =>
    refine ⟨w, by simp [hcv, Except.toOption], ?_, ?_, ?_, ?_⟩
    · cases hf : stats.first <;> simp [numberConverter.ValidateAndConvert, hcv, hf]
    · cases hf : stats.first <;> simp [numberConverter.ValidateAndConvert, hcv, hf]
    · intro hf
      simp [numberConverter.ValidateAndConvert, hcv, hf]
    · intro hf
      simp [numberConverter.ValidateAndConvert, hcv, hf, int128.Min, int128.Max]

/-- Null-step obligation of the statistics invariant for the double
converter. -/
theorem doubleConverter_Hnull (c : doubleConverter) :
    ∀ (stats : statsBuffer) (buf : TBuf),
      (c.ValidateAndConvert stats none buf).err = none →
      (c.ValidateAndConvert stats none buf).stats.minRealVal = stats.minRealVal ∧
      (c.ValidateAndConvert stats none buf).stats.maxRealVal = stats.maxRealVal ∧
      (c.ValidateAndConvert stats none buf).stats.first = stats.first ∧
      (c.ValidateAndConvert stats none buf).stats.nullCount = stats.nullCount + 1 := by
  intro stats buf h
  cases hn : c.nullable with
  | false => simp [doubleConverter.ValidateAndConvert, hn] at h
  | true => simp [doubleConverter.ValidateAndConvert, hn]

/-- Value-step obligation of the statistics invariant for the double
converter. -/
theorem doubleConverter_Hval (c : doubleConverter) :
    ∀ (stats : statsBuffer) (v : RuntimeValue) (buf : TBuf),
      (c.ValidateAndConvert stats (some v) buf).err = none →
      ∃ w, ((ValueAsFloat64 v).toOption).map F64.finite = some w ∧
        (c.ValidateAndConvert stats (some v) buf).stats.first = false ∧
        (c.ValidateAndConvert stats (some v) buf).stats.nullCount = stats.nullCount ∧
        (stats.first = true →
          (c.ValidateAndConvert stats (some v) buf).stats.minRealVal = w ∧
          (c.ValidateAndConvert stats (some v) buf).stats.maxRealVal = w) ∧
        (stats.first = false →
          (c.ValidateAndConvert stats (some v) buf).stats.minRealVal =
            goMinF64 stats.minRealVal w ∧
          (c.ValidateAndConvert stats (some v) buf).stats.maxRealVal =
            goMaxF64 stats.maxRealVal w) := by
  intro stats v buf h
  cases hv : ValueAsFloat64 v with
  | error e => simp [doubleConverter.ValidateAndConvert, hv] at h
  | ok q =>
    refine ⟨.finite q, by simp [hv, Except.toOption], ?_, ?_, ?_, ?_⟩
    · cases hf : stats.first <;> simp [doubleConverter.ValidateAndConvert, hv, hf]
    · cases hf : stats.first <;> simp [doubleConverter.ValidateAndConvert, hv, hf]
    · intro hf
      simp [doubleConverter.ValidateAndConvert, hv, hf]
    · intro hf
      simp [doubleConverter.ValidateAndConvert, hv, hf]

/-- Characterization of a successful non-null binary-converter step. -/
theorem binaryConverter_step_ok (c : binaryConverter) (stats : statsBuffer)
    (v : RuntimeValue) (buf : TBuf) (bs : List Nat) (hv : ValueAsBytes v = .ok bs)
    (hlen : ¬ bs.length > c.maxLength) (hu : ¬ (c.utf8 && !utf8Valid bs) = true) :
    c.ValidateAndConvert stats (some v) buf =
      { err := none
        stats :=
          if stats.first then
            { stats with minStrVal := bs, maxStrVal := bs, maxStrLen := bs.length
                         first := false }
          else
            { stats with minStrVal := bMinStep stats.minStrVal bs
                         maxStrVal := bMaxStep stats.maxStrVal bs
                         maxStrLen := max stats.maxStrLen bs.length }
        buf := buf.WriteBytes bs } := by
  simp only [binaryConverter.ValidateAndConvert, hv, if_neg hlen, if_neg hu]
  cases hf : stats.first
  · simp only [hf, Bool.false_eq_true, if_false]
    unfold bMinStep bMaxStep
    by_cases h1 : bytesCompare bs stats.minStrVal = Ordering.lt <;>
      by_cases h2 : bytesCompare bs stats.maxStrVal = Ordering.gt <;>
        simp [h1, h2, hf]
  · simp [hf]

/-- Null-step obligation of the statistics invariant for the binary
converter (byte aggregates). -/
theorem binaryConverter_Hnull (c : binaryConverter) :
    ∀ (stats : statsBuffer) (buf : TBuf),
      (c.ValidateAndConvert stats none buf).err = none →
      (c.ValidateAndConvert stats none buf).stats.minStrVal = stats.minStrVal ∧
      (c.ValidateAndConvert stats none buf).stats.maxStrVal = stats.maxStrVal ∧
      (c.ValidateAndConvert stats none buf).stats.first = stats.first ∧
      (c.ValidateAndConvert stats none buf).stats.nullCount = stats.nullCount + 1 := by
  intro stats buf h
  cases hn : c.nullable with
  | false => simp [binaryConverter.ValidateAndConvert, hn] at h
  | true => simp [binaryConverter.ValidateAndConvert, hn]

/-- Value-step obligation of the statistics invariant for the binary
converter (byte aggregates). -/
theorem binaryConverter_Hval (c : binaryConverter) :
    ∀ (stats : statsBuffer) (v : RuntimeValue) (buf : TBuf),
      (c.ValidateAndConvert stats (some v) buf).err = none →
      ∃ w, (ValueAsBytes v).toOption = some w ∧
        (c.ValidateAndConvert stats (some v) buf).stats.first = false ∧
        (c.ValidateAndConvert stats (some v) buf).stats.nullCount = stats.nullCount ∧
        (stats.first = true →
          (c.ValidateAndConvert stats (some v) buf).stats.minStrVal = w ∧
          (c.ValidateAndConvert stats (some v) buf).stats.maxStrVal = w) ∧
        (stats.first = false →
          (c.ValidateAndConvert stats (some v) buf).stats.minStrVal =
            bMinStep stats.minStrVal w ∧
          (c.ValidateAndConvert stats (some v) buf).stats.maxStrVal =
            bMaxStep stats.maxStrVal w) := by
  intro stats v buf h
  cases hv : ValueAsBytes v with
  | error e => simp [binaryConverter.ValidateAndConvert, hv] at h
  | ok bs =>
    by_cases hlen : bs.length > c.maxLength
    · simp [binaryConverter.ValidateAndConvert, hv, hlen] at h
    · by_cases hu : (c.utf8 && !utf8Valid bs) = true
      · simp [binaryConverter.ValidateAndConvert, hv, hlen, hu] at h
      · rw [binaryConverter_step_ok c stats v buf bs hv hlen hu]
        refine ⟨bs, by simp [hv, Except.toOption], ?_, ?_, ?_, ?_⟩
        · cases hf : stats.first <;> simp [hf]
        · cases hf : stats.first <;> simp [hf]
        · intro hf
          simp [hf]
        · intro hf
          simp [hf]

/-- Null-step obligation of the statistics invariant for the binary
converter (maximum encoded length). -/
theorem binaryConverter_Hnull_len (c : binaryConverter) :
    ∀ (stats : statsBuffer) (buf : TBuf),
      (c.ValidateAndConvert stats none buf).err = none →
      (c.ValidateAndConvert stats none buf).stats.maxStrLen = stats.maxStrLen ∧
      (c.ValidateAndConvert stats none buf).stats.maxStrLen = stats.maxStrLen ∧
      (c.ValidateAndConvert stats none buf).stats.first = stats.first ∧
      (c.ValidateAndConvert stats none buf).stats.nullCount = stats.nullCount + 1 := by
  intro stats buf h
  cases hn : c.nullable with
  | false => simp [binaryConverter.ValidateAndConvert, hn] at h
  | true => simp [binaryConverter.ValidateAndConvert, hn]

/-- Value-step obligation of the statistics invariant for the binary
converter (maximum encoded length). -/
theorem binaryConverter_Hval_len (c : binaryConverter) :
    ∀ (stats : statsBuffer) (v : RuntimeValue) (buf : TBuf),
      (c.ValidateAndConvert stats (some v) buf).err = none →
      ∃ w, ((ValueAsBytes v).toOption).map List.length = some w ∧
        (c.ValidateAndConvert stats (some v) buf).stats.first = false ∧
        (c.ValidateAndConvert stats (some v) buf).stats.nullCount = stats.nullCount ∧
        (stats.first = true →
          (c.ValidateAndConvert stats (some v) buf).stats.maxStrLen = w ∧
          (c.ValidateAndConvert stats (some v) buf).stats.maxStrLen = w) ∧
        (stats.first = false →
          (c.ValidateAndConvert stats (some v) buf).stats.maxStrLen =
            max stats.maxStrLen w ∧
          (c.ValidateAndConvert stats (some v) buf).stats.maxStrLen =
            max stats.maxStrLen w) := by
  intro stats v buf h
  cases hv : ValueAsBytes v with
  | error e => simp [binaryConverter.ValidateAndConvert, hv] at h
  | ok bs =>
    by_cases hlen : bs.length > c.maxLength
    · simp [binaryConverter.ValidateAndConvert, hv, hlen] at h
    · by_cases hu : (c.utf8 && !utf8Valid bs) = true
      · simp [binaryConverter.ValidateAndConvert, hv, hlen, hu] at h
      · rw [binaryConverter_step_ok c stats v buf bs hv hlen hu]
        refine ⟨bs.length, by simp [hv, Except.toOption], ?_, ?_, ?_, ?_⟩
        · cases hf : stats.first <;> simp [hf]
        · cases hf : stats.first <;> simp [hf]
        · intro hf
          simp [hf]
        · intro hf
          simp [hf]

/-- The accepted JSON encoded lengths of a run are the lengths of the
accepted encodings. -/
theorem filterMap_jsonLen_eq (c : jsonConverter) (l : List (Option RuntimeValue)) :
    (l.filterMap fun ov => ov.bind fun v => (jsonConvert? c v).map List.length) =
      (convertedJsons c l).map List.length :=
  filterMap_bind_map (fun v => jsonConvert? c v) List.length l

/-- The accepted JSON-array encoded lengths of a run are the lengths of the
accepted encodings. -/
theorem filterMap_jsonArrayLen_eq (c : jsonConverter) (l : List (Option RuntimeValue)) :
    (l.filterMap fun ov => ov.bind fun v => (jsonArrayConvert? c v).map List.length) =
      (convertedJsonArrays c l).map List.length :=
  filterMap_bind_map (fun v => jsonArrayConvert? c v) List.length l

/-- The accepted JSON-object encoded lengths of a run are the lengths of the
accepted encodings. -/
theorem filterMap_jsonObjectLen_eq (c : jsonConverter) (l : List (Option RuntimeValue)) :
    (l.filterMap fun ov => ov.bind fun v => (jsonObjectConvert? c v).map List.length) =
      (convertedJsonObjects c l).map List.length :=
  filterMap_bind_map (fun v => jsonObjectConvert? c v) List.length l

/-- Null-step obligation of the statistics invariant for the boolean
converter. -/
theorem boolConverter_Hnull (c : boolConverter) :
    ∀ (stats : statsBuffer) (buf : TBuf),
      (c.ValidateAndConvert stats none buf).err = none →
      (c.ValidateAndConvert stats none buf).stats.minIntVal = stats.minIntVal ∧
      (c.ValidateAndConvert stats none buf).stats.maxIntVal = stats.maxIntVal ∧
      (c.ValidateAndConvert stats none buf).stats.first = stats.first ∧
      (c.ValidateAndConvert stats none buf).stats.nullCount = stats.nullCount + 1 := by
  intro stats buf h
  cases hn : c.nullable with
  | false => simp [boolConverter.ValidateAndConvert, hn] at h
  | true => simp [boolConverter.ValidateAndConvert, hn]

/-- Value-step obligation of the statistics invariant for the boolean
converter. -/
theorem boolConverter_Hval (c : boolConverter) :
    ∀ (stats : statsBuffer) (v : RuntimeValue) (buf : TBuf),
      (c.ValidateAndConvert stats (some v) buf).err = none →
      ∃ w, (((ValueAsBool v).toOption).map fun b =>
          if b then int128.FromUint64 1 else int128.FromUint64 0) = some w ∧
        (c.ValidateAndConvert stats (some v) buf).stats.first = false ∧
        (c.ValidateAndConvert stats (some v) buf).stats.nullCount = stats.nullCount ∧
        (stats.first = true →
          (c.ValidateAndConvert stats (some v) buf).stats.minIntVal = w ∧
          (c.ValidateAndConvert stats (some v) buf).stats.maxIntVal = w) ∧
        (stats.first = false →
          (c.ValidateAndConvert stats (some v) buf).stats.minIntVal =
            min stats.minIntVal w ∧
          (c.ValidateAndConvert stats (some v) buf).stats.maxIntVal =
            max stats.maxIntVal w) := by
  intro stats v buf h
  cases hv : ValueAsBool v with
  | error e => simp [boolConverter.ValidateAndConvert, hv] at h
  | ok b =>
    refine ⟨if b then int128.FromUint64 1 else int128.FromUint64 0,
      by simp [hv, Except.toOption], ?_, ?_, ?_, ?_⟩
    · cases hf : stats.first <;> simp [boolConverter.ValidateAndConvert, hv, hf]
    · cases hf : stats.first <;> simp [boolConverter.ValidateAndConvert, hv, hf]
    · intro hf
      simp [boolConverter.ValidateAndConvert, hv, hf]
    · intro hf
      simp [boolConverter.ValidateAndConvert, hv, hf, int128.Min, int128.Max]

/-- A successful `parseStage` call found a time to encode: the parse source's
resolution succeeded and the call equals the encode stage on its result. -/
theorem timestampConverter_parseStage_ok (c : timestampConverter) (stats : statsBuffer)
    (buf : TBuf) (s : String) (t0 : TimeVal)
    (h : (c.parseStage stats buf s t0).err = none) :
    ∃ t1, (if s ≠ "" then parseInLocation s c.defaultTZ else some t0) = some t1 ∧
      c.parseStage stats buf s t0 = c.encodeStage stats buf t1 := by
  by_cases hs : s ≠ ""
  · cases hp : parseInLocation s c.defaultTZ with
    | none =>
      exfalso
      simp [timestampConverter.parseStage, hs, hp] at h
    | some t1 =>
      refine ⟨t1, by rw [if_pos hs], ?_⟩
      simp [timestampConverter.parseStage, hs, hp]
  · refine ⟨t0, by rw [if_neg hs], ?_⟩
    simp [timestampConverter.parseStage, hs]

/-- Value-step facts of a successful `encodeStage` call: the encoded value is
the one `timestampEncode?` extracts and the Int128 aggregates update as the
statistics invariant requires. -/
theorem timestampConverter_encodeStage_Hval (c : timestampConverter) (stats : statsBuffer)
    (buf : TBuf) (t1 : TimeVal) (h : (c.encodeStage stats buf t1).err = none) :
    ∃ w, timestampEncode? c t1 = some w ∧
      (c.encodeStage stats buf t1).stats.first = false ∧
      (c.encodeStage stats buf t1).stats.nullCount = stats.nullCount ∧
      (stats.first = true →
        (c.encodeStage stats buf t1).stats.minIntVal = w ∧
        (c.encodeStage stats buf t1).stats.maxIntVal = w) ∧
      (stats.first = false →
        (c.encodeStage stats buf t1).stats.minIntVal = min stats.minIntVal w ∧
        (c.encodeStage stats buf t1).stats.maxIntVal = max stats.maxIntVal w) := by
  by_cases hfit : int128.FitsInPrecision
      (snowflakeTimestampInt (if c.trimTZ then t1.UTC else t1) c.scale c.includeTZ)
      c.precision = true
  · refine ⟨snowflakeTimestampInt (if c.trimTZ then t1.UTC else t1) c.scale c.includeTZ,
      by simp [timestampEncode?, hfit], ?_, ?_, ?_, ?_⟩
    · cases hf : stats.first <;> simp [timestampConverter.encodeStage, hfit, hf]
    · cases hf : stats.first <;> simp [timestampConverter.encodeStage, hfit, hf]
    · intro hf
      simp [timestampConverter.encodeStage, hfit, hf]
    · intro hf
      simp [timestampConverter.encodeStage, hfit, hf, int128.Min, int128.Max]
  · exfalso
    rw [Bool.not_eq_true] at hfit
    simp [timestampConverter.encodeStage, hfit] at h

/-- Value-step facts of a successful `parseStage` call, in terms of the
`timestampStageConvert?` extraction. -/
theorem timestampConverter_parseStage_Hval (c : timestampConverter) (stats : statsBuffer)
    (buf : TBuf) (s : String) (t0 : TimeVal)
    (h : (c.parseStage stats buf s t0).err = none) :
    ∃ w, timestampStageConvert? c s t0 = some w ∧
      (c.parseStage stats buf s t0).stats.first = false ∧
      (c.parseStage stats buf s t0).stats.nullCount = stats.nullCount ∧
      (stats.first = true →
        (c.parseStage stats buf s t0).stats.minIntVal = w ∧
        (c.parseStage stats buf s t0).stats.maxIntVal = w) ∧
      (stats.first = false →
        (c.parseStage stats buf s t0).stats.minIntVal = min stats.minIntVal w ∧
        (c.parseStage stats buf s t0).stats.maxIntVal = max stats.maxIntVal w) := by
  obtain ⟨t1, hp, he⟩ := timestampConverter_parseStage_ok c stats buf s t0 h
  rw [he] at h ⊢
  obtain ⟨w, hw, h1, h2, h3, h4⟩ := timestampConverter_encodeStage_Hval c stats buf t1 h
  refine ⟨w, ?_, h1, h2, h3, h4⟩
  simp only [timestampStageConvert?]
  rw [hp]
  exact hw

/-- Null-step obligation of the statistics invariant for the timestamp
converter. -/
theorem timestampConverter_Hnull (c : timestampConverter) :
    ∀ (stats : statsBuffer) (buf : TBuf),
      (c.ValidateAndConvert stats none buf).err = none →
      (c.ValidateAndConvert stats none buf).stats.minIntVal = stats.minIntVal ∧
      (c.ValidateAndConvert stats none buf).stats.maxIntVal = stats.maxIntVal ∧
      (c.ValidateAndConvert stats none buf).stats.first = stats.first ∧
      (c.ValidateAndConvert stats none buf).stats.nullCount = stats.nullCount + 1 := by
  intro stats buf h
  cases hn : c.nullable with
  | false => simp [timestampConverter.ValidateAndConvert, hn] at h
  | true => simp [timestampConverter.ValidateAndConvert, hn]

/-- Value-step obligation of the statistics invariant for the timestamp
converter. -/
theorem timestampConverter_Hval (c : timestampConverter) :
    ∀ (stats : statsBuffer) (v : RuntimeValue) (buf : TBuf),
      (c.ValidateAndConvert stats (some v) buf).err = none →
      ∃ w, timestampConvert? c v = some w ∧
        (c.ValidateAndConvert stats (some v) buf).stats.first = false ∧
        (c.ValidateAndConvert stats (some v) buf).stats.nullCount = stats.nullCount ∧
        (stats.first = true →
          (c.ValidateAndConvert stats (some v) buf).stats.minIntVal = w ∧
          (c.ValidateAndConvert stats (some v) buf).stats.maxIntVal = w) ∧
        (stats.first = false →
          (c.ValidateAndConvert stats (some v) buf).stats.minIntVal =
            min stats.minIntVal w ∧
          (c.ValidateAndConvert stats (some v) buf).stats.maxIntVal =
            max stats.maxIntVal w) := by
  intro stats v buf h
  cases v with
  | bytes bs =>
    obtain ⟨w, hw, h1, h2, h3, h4⟩ :=
      timestampConverter_parseStage_Hval c stats buf (stringOfBytes bs) timeZero h
    exact ⟨w, hw, h1, h2, h3, h4⟩
  | str s =>
    obtain ⟨w, hw, h1, h2, h3, h4⟩ :=
      timestampConverter_parseStage_Hval c stats buf s timeZero h
    exact ⟨w, hw, h1, h2, h3, h4⟩
  | timestamp t =>
    obtain ⟨w, hw, h1, h2, h3, h4⟩ :=
      timestampConverter_parseStage_Hval c stats buf "" t h
    exact ⟨w, hw, h1, h2, h3, h4⟩
  | boolean b => exact Option.noConfusion h
  | intVal i => exact Option.noConfusion h
  | uintVal u => exact Option.noConfusion h
  | float32V x => exact Option.noConfusion h
  | float64V x => exact Option.noConfusion h
  | jsonNumber s => exact Option.noConfusion h
  | jsonVal shape enc => exact Option.noConfusion h

/-- Null-step obligation of the statistics invariant for the time-of-day
converter. -/
theorem timeConverter_Hnull (c : timeConverter) :
    ∀ (stats : statsBuffer) (buf : TBuf),
      (c.ValidateAndConvert stats none buf).err = none →
      (c.ValidateAndConvert stats none buf).stats.minIntVal = stats.minIntVal ∧
      (c.ValidateAndConvert stats none buf).stats.maxIntVal = stats.maxIntVal ∧
      (c.ValidateAndConvert stats none buf).stats.first = stats.first ∧
      (c.ValidateAndConvert stats none buf).stats.nullCount = stats.nullCount + 1 := by
  intro stats buf h
  cases hn : c.nullable with
  | false => simp [timeConverter.ValidateAndConvert, hn] at h
  | true => simp [timeConverter.ValidateAndConvert, hn]

/-- Value-step obligation of the statistics invariant for the time-of-day
converter. -/
theorem timeConverter_Hval (c : timeConverter) :
    ∀ (stats : statsBuffer) (v : RuntimeValue) (buf : TBuf),
      (c.ValidateAndConvert stats (some v) buf).err = none →
      ∃ w, timeConvert? c v = some w ∧
        (c.ValidateAndConvert stats (some v) buf).stats.first = false ∧
        (c.ValidateAndConvert stats (some v) buf).stats.nullCount = stats.nullCount ∧
        (stats.first = true →
          (c.ValidateAndConvert stats (some v) buf).stats.minIntVal = w ∧
          (c.ValidateAndConvert stats (some v) buf).stats.maxIntVal = w) ∧
        (stats.first = false →
          (c.ValidateAndConvert stats (some v) buf).stats.minIntVal =
            min stats.minIntVal w ∧
          (c.ValidateAndConvert stats (some v) buf).stats.maxIntVal =
            max stats.maxIntVal w) := by
  intro stats v buf h
  cases hv : ValueAsTimestamp v with
  | error e => simp [timeConverter.ValidateAndConvert, hv] at h
  | ok t0 =>
    refine ⟨int128.FromInt64 (Int.tdiv
        (t0.UTC.Hour * 3600000000000 + t0.UTC.Minute * 60000000000 +
          t0.UTC.Second * 1000000000 + (t0.UTC.Nanosecond : Int))
        (pow10TableInt64 (9 - c.scale).toNat)),
      by simp [timeConvert?, hv, Except.toOption], ?_, ?_, ?_, ?_⟩
    · cases hf : stats.first <;> simp [timeConverter.ValidateAndConvert, hv, hf]
    · cases hf : stats.first <;> simp [timeConverter.ValidateAndConvert, hv, hf]
    · intro hf
      simp [timeConverter.ValidateAndConvert, hv, hf]
    · intro hf
      simp [timeConverter.ValidateAndConvert, hv, hf, int128.Min, int128.Max]

/-- Null-step obligation of the statistics invariant for the date
converter. -/
theorem dateConverter_Hnull (c : dateConverter) :
    ∀ (stats : statsBuffer) (buf : TBuf),
      (c.ValidateAndConvert stats none buf).err = none →
      (c.ValidateAndConvert stats none buf).stats.minIntVal = stats.minIntVal ∧
      (c.ValidateAndConvert stats none buf).stats.maxIntVal = stats.maxIntVal ∧
      (c.ValidateAndConvert stats none buf).stats.first = stats.first ∧
      (c.ValidateAndConvert stats none buf).stats.nullCount = stats.nullCount + 1 := by
  intro stats buf h
  cases hn : c.nullable with
  | false => simp [dateConverter.ValidateAndConvert, hn] at h
  | true => simp [dateConverter.ValidateAndConvert, hn]

/-- Value-step obligation of the statistics invariant for the date
converter. -/
theorem dateConverter_Hval (c : dateConverter) :
    ∀ (stats : statsBuffer) (v : RuntimeValue) (buf : TBuf),
      (c.ValidateAndConvert stats (some v) buf).err = none →
      ∃ w, dateConvert? v = some w ∧
        (c.ValidateAndConvert stats (some v) buf).stats.first = false ∧
        (c.ValidateAndConvert stats (some v) buf).stats.nullCount = stats.nullCount ∧
        (stats.first = true →
          (c.ValidateAndConvert stats (some v) buf).stats.minIntVal = w ∧
          (c.ValidateAndConvert stats (some v) buf).stats.maxIntVal = w) ∧
        (stats.first = false →
          (c.ValidateAndConvert stats (some v) buf).stats.minIntVal =
            min stats.minIntVal w ∧
          (c.ValidateAndConvert stats (some v) buf).stats.maxIntVal =
            max stats.maxIntVal w) := by
  intro stats v buf h
  cases hv : ValueAsTimestamp v with
  | error e => simp [dateConverter.ValidateAndConvert, hv] at h
  | ok t0 =>
    by_cases hy : t0.UTC.Year < -9999 ∨ t0.UTC.Year > 9999
    · exfalso
      simp [dateConverter.ValidateAndConvert, hv, hy] at h
    · refine ⟨int128.FromInt64 (Int.tdiv t0.UTC.Unix (24 * 60 * 60)),
        by simp [dateConvert?, hv, hy], ?_, ?_, ?_, ?_⟩
      · cases hf : stats.first <;> simp [dateConverter.ValidateAndConvert, hv, hy, hf]
      · cases hf : stats.first <;> simp [dateConverter.ValidateAndConvert, hv, hy, hf]
      · intro hf
        simp [dateConverter.ValidateAndConvert, hv, hy, hf]
      · intro hf
        simp [dateConverter.ValidateAndConvert, hv, hy, hf, int128.Min, int128.Max]

/-- Characterization of a successful non-null JSON-converter step. -/
theorem jsonConverter_step_ok (c : jsonConverter) (stats : statsBuffer)
    (v : RuntimeValue) (buf : TBuf)
    (hlen : ¬ (gabsBytes v).length > c.maxLength) :
    c.ValidateAndConvert stats (some v) buf =
      { err := none
        stats :=
          if stats.first then
            { stats with minStrVal := gabsBytes v, maxStrVal := gabsBytes v
                         maxStrLen := (gabsBytes v).length, first := false }
          else
            { stats with minStrVal := bMinStep stats.minStrVal (gabsBytes v)
                         maxStrVal := bMaxStep stats.maxStrVal (gabsBytes v)
                         maxStrLen := max stats.maxStrLen (gabsBytes v).length }
        buf := buf.WriteBytes (gabsBytes v) } := by
  simp only [jsonConverter.ValidateAndConvert, if_neg hlen]
  cases hf : stats.first
  · simp only [hf, Bool.false_eq_true, if_false]
    unfold bMinStep bMaxStep
    by_cases h1 : bytesCompare (gabsBytes v) stats.minStrVal = Ordering.lt <;>
      by_cases h2 : bytesCompare (gabsBytes v) stats.maxStrVal = Ordering.gt <;>
        simp [h1, h2, hf]
  · simp [hf]

/-- Null-step obligation of the statistics invariant for the JSON converter
(byte aggregates). -/
theorem jsonConverter_Hnull (c : jsonConverter) :
    ∀ (stats : statsBuffer) (buf : TBuf),
      (c.ValidateAndConvert stats none buf).err = none →
      (c.ValidateAndConvert stats none buf).stats.minStrVal = stats.minStrVal ∧
      (c.ValidateAndConvert stats none buf).stats.maxStrVal = stats.maxStrVal ∧
      (c.ValidateAndConvert stats none buf).stats.first = stats.first ∧
      (c.ValidateAndConvert stats none buf).stats.nullCount = stats.nullCount + 1 := by
  intro stats buf h
  cases hn : c.nullable with
  | false => simp [jsonConverter.ValidateAndConvert, hn] at h
  | true => simp [jsonConverter.ValidateAndConvert, hn]

/-- Value-step obligation of the statistics invariant for the JSON converter
(byte aggregates). -/
theorem jsonConverter_Hval (c : jsonConverter) :
    ∀ (stats : statsBuffer) (v : RuntimeValue) (buf : TBuf),
      (c.ValidateAndConvert stats (some v) buf).err = none →
      ∃ w, jsonConvert? c v = some w ∧
        (c.ValidateAndConvert stats (some v) buf).stats.first = false ∧
        (c.ValidateAndConvert stats (some v) buf).stats.nullCount = stats.nullCount ∧
        (stats.first = true →
          (c.ValidateAndConvert stats (some v) buf).stats.minStrVal = w ∧
          (c.ValidateAndConvert stats (some v) buf).stats.maxStrVal = w) ∧
        (stats.first = false →
          (c.ValidateAndConvert stats (some v) buf).stats.minStrVal =
            bMinStep stats.minStrVal w ∧
          (c.ValidateAndConvert stats (some v) buf).stats.maxStrVal =
            bMaxStep stats.maxStrVal w) := by
  intro stats v buf h
  by_cases hlen : (gabsBytes v).length > c.maxLength
  · exfalso
    simp [jsonConverter.ValidateAndConvert, hlen] at h
  · rw [jsonConverter_step_ok c stats v buf hlen]
    refine ⟨gabsBytes v, by simp [jsonConvert?, hlen], ?_, ?_, ?_, ?_⟩
    · cases hf : stats.first <;> simp [hf]
    · cases hf : stats.first <;> simp [hf]
    · intro hf
      simp [hf]
    · intro hf
      simp [hf]

/-- Null-step obligation of the statistics invariant for the JSON converter
(maximum encoded length). -/
theorem jsonConverter_Hnull_len (c : jsonConverter) :
    ∀ (stats : statsBuffer) (buf : TBuf),
      (c.ValidateAndConvert stats none buf).err = none →
      (c.ValidateAndConvert stats none buf).stats.maxStrLen = stats.maxStrLen ∧
      (c.ValidateAndConvert stats none buf).stats.maxStrLen = stats.maxStrLen ∧
      (c.ValidateAndConvert stats none buf).stats.first = stats.first ∧
      (c.ValidateAndConvert stats none buf).stats.nullCount = stats.nullCount + 1 := by
  intro stats buf h
  cases hn : c.nullable with
  | false => simp [jsonConverter.ValidateAndConvert, hn] at h
  | true => simp [jsonConverter.ValidateAndConvert, hn]

/-- Value-step obligation of the statistics invariant for the JSON converter
(maximum encoded length). -/
theorem jsonConverter_Hval_len (c : jsonConverter) :
    ∀ (stats : statsBuffer) (v : RuntimeValue) (buf : TBuf),
      (c.ValidateAndConvert stats (some v) buf).err = none →
      ∃ w, (jsonConvert? c v).map List.length = some w ∧
        (c.ValidateAndConvert stats (some v) buf).stats.first = false ∧
        (c.ValidateAndConvert stats (some v) buf).stats.nullCount = stats.nullCount ∧
        (stats.first = true →
          (c.ValidateAndConvert stats (some v) buf).stats.maxStrLen = w ∧
          (c.ValidateAndConvert stats (some v) buf).stats.maxStrLen = w) ∧
        (stats.first = false →
          (c.ValidateAndConvert stats (some v) buf).stats.maxStrLen =
            max stats.maxStrLen w ∧
          (c.ValidateAndConvert stats (some v) buf).stats.maxStrLen =
            max stats.maxStrLen w) := by
  intro stats v buf h
  by_cases hlen : (gabsBytes v).length > c.maxLength
  · exfalso
    simp [jsonConverter.ValidateAndConvert, hlen] at h
  · rw [jsonConverter_step_ok c stats v buf hlen]
    refine ⟨(gabsBytes v).length, by simp [jsonConvert?, hlen], ?_, ?_, ?_, ?_⟩
    · cases hf : stats.first <;> simp [hf]
    · cases hf : stats.first <;> simp [hf]
    · intro hf
      simp [hf]
    · intro hf
      simp [hf]

/-- Null-step obligation of the statistics invariant for the JSON-array
converter (byte aggregates): the nil branch delegates to the embedded JSON
converter. -/
theorem jsonArrayConverter_Hnull (c : jsonConverter) :
    ∀ (stats : statsBuffer) (buf : TBuf),
      (jsonArrayConverter.ValidateAndConvert c stats none buf).err = none →
      (jsonArrayConverter.ValidateAndConvert c stats none buf).stats.minStrVal =
        stats.minStrVal ∧
      (jsonArrayConverter.ValidateAndConvert c stats none buf).stats.maxStrVal =
        stats.maxStrVal ∧
      (jsonArrayConverter.ValidateAndConvert c stats none buf).stats.first = stats.first ∧
      (jsonArrayConverter.ValidateAndConvert c stats none buf).stats.nullCount =
        stats.nullCount + 1 := by
  intro stats buf h
  exact jsonConverter_Hnull c stats buf h

/-- Value-step obligation of the statistics invariant for the JSON-array
converter (byte aggregates): only array-shaped values reach the embedded JSON
converter. -/
theorem jsonArrayConverter_Hval (c : jsonConverter) :
    ∀ (stats : statsBuffer) (v : RuntimeValue) (buf : TBuf),
      (jsonArrayConverter.ValidateAndConvert c stats (some v) buf).err = none →
      ∃ w, jsonArrayConvert? c v = some w ∧
        (jsonArrayConverter.ValidateAndConvert c stats (some v) buf).stats.first = false ∧
        (jsonArrayConverter.ValidateAndConvert c stats (some v) buf).stats.nullCount =
          stats.nullCount ∧
        (stats.first = true →
          (jsonArrayConverter.ValidateAndConvert c stats (some v) buf).stats.minStrVal = w ∧
          (jsonArrayConverter.ValidateAndConvert c stats (some v) buf).stats.maxStrVal = w) ∧
        (stats.first = false →
          (jsonArrayConverter.ValidateAndConvert c stats (some v) buf).stats.minStrVal =
            bMinStep stats.minStrVal w ∧
          (jsonArrayConverter.ValidateAndConvert c stats (some v) buf).stats.maxStrVal =
            bMaxStep stats.maxStrVal w) := by
  intro stats v buf h
  cases v with
  | jsonVal shape enc =>
    cases shape with
    | arrayShape =>
      obtain ⟨w, hw, h1, h2, h3, h4⟩ :=
        jsonConverter_Hval c stats (.jsonVal .arrayShape enc) buf h
      exact ⟨w, hw, h1, h2, h3, h4⟩
    | objectShape => exact Option.noConfusion h
    | otherShape => exact Option.noConfusion h
  | boolean b => exact Option.noConfusion h
  | intVal i => exact Option.noConfusion h
  | uintVal u => exact Option.noConfusion h
  | float32V x => exact Option.noConfusion h
  | float64V x => exact Option.noConfusion h
  | str s => exact Option.noConfusion h
  | bytes bs => exact Option.noConfusion h
  | jsonNumber s => exact Option.noConfusion h
  | timestamp t => exact Option.noConfusion h

/-- Null-step obligation of the statistics invariant for the JSON-array
converter (maximum encoded length). -/
theorem jsonArrayConverter_Hnull_len (c : jsonConverter) :
    ∀ (stats : statsBuffer) (buf : TBuf),
      (jsonArrayConverter.ValidateAndConvert c stats none buf).err = none →
      (jsonArrayConverter.ValidateAndConvert c stats none buf).stats.maxStrLen =
        stats.maxStrLen ∧
      (jsonArrayConverter.ValidateAndConvert c stats none buf).stats.maxStrLen =
        stats.maxStrLen ∧
      (jsonArrayConverter.ValidateAndConvert c stats none buf).stats.first = stats.first ∧
      (jsonArrayConverter.ValidateAndConvert c stats none buf).stats.nullCount =
        stats.nullCount + 1 := by
  intro stats buf h
  exact jsonConverter_Hnull_len c stats buf h

/-- Value-step obligation of the statistics invariant for the JSON-array
converter (maximum encoded length). -/
theorem jsonArrayConverter_Hval_len (c : jsonConverter) :
    ∀ (stats : statsBuffer) (v : RuntimeValue) (buf : TBuf),
      (jsonArrayConverter.ValidateAndConvert c stats (some v) buf).err = none →
      ∃ w, (jsonArrayConvert? c v).map List.length = some w ∧
        (jsonArrayConverter.ValidateAndConvert c stats (some v) buf).stats.first = false ∧
        (jsonArrayConverter.ValidateAndConvert c stats (some v) buf).stats.nullCount =
          stats.nullCount ∧
        (stats.first = true →
          (jsonArrayConverter.ValidateAndConvert c stats (some v) buf).stats.maxStrLen = w ∧
          (jsonArrayConverter.ValidateAndConvert c stats (some v) buf).stats.maxStrLen = w) ∧
        (stats.first = false →
          (jsonArrayConverter.ValidateAndConvert c stats (some v) buf).stats.maxStrLen =
            max stats.maxStrLen w ∧
          (jsonArrayConverter.ValidateAndConvert c stats (some v) buf).stats.maxStrLen =
            max stats.maxStrLen w) := by
  intro stats v buf h
  cases v with
  | jsonVal shape enc =>
    cases shape with
    | arrayShape =>
      obtain ⟨w, hw, h1, h2, h3, h4⟩ :=
        jsonConverter_Hval_len c stats (.jsonVal .arrayShape enc) buf h
      exact ⟨w, hw, h1, h2, h3, h4⟩
    | objectShape => exact Option.noConfusion h
    | otherShape => exact Option.noConfusion h
  | boolean b => exact Option.noConfusion h
  | intVal i => exact Option.noConfusion h
  | uintVal u => exact Option.noConfusion h
  | float32V x => exact Option.noConfusion h
  | float64V x => exact Option.noConfusion h
  | str s => exact Option.noConfusion h
  | bytes bs => exact Option.noConfusion h
  | jsonNumber s => exact Option.noConfusion h
  | timestamp t => exact Option.noConfusion h

/-- Null-step obligation of the statistics invariant for the JSON-object
converter (byte aggregates). -/
theorem jsonObjectConverter_Hnull (c : jsonConverter) :
    ∀ (stats : statsBuffer) (buf : TBuf),
      (jsonObjectConverter.ValidateAndConvert c stats none buf).err = none →
      (jsonObjectConverter.ValidateAndConvert c stats none buf).stats.minStrVal =
        stats.minStrVal ∧
      (jsonObjectConverter.ValidateAndConvert c stats none buf).stats.maxStrVal =
        stats.maxStrVal ∧
      (jsonObjectConverter.ValidateAndConvert c stats none buf).stats.first = stats.first ∧
      (jsonObjectConverter.ValidateAndConvert c stats none buf).stats.nullCount =
        stats.nullCount + 1 := by
  intro stats buf h
  exact jsonConverter_Hnull c stats buf h

/-- Value-step obligation of the statistics invariant for the JSON-object
converter (byte aggregates): only object-shaped values reach the embedded
JSON converter. -/
theorem jsonObjectConverter_Hval (c : jsonConverter) :
    ∀ (stats : statsBuffer) (v : RuntimeValue) (buf : TBuf),
      (jsonObjectConverter.ValidateAndConvert c stats (some v) buf).err = none →
      ∃ w, jsonObjectConvert? c v = some w ∧
        (jsonObjectConverter.ValidateAndConvert c stats (some v) buf).stats.first = false ∧
        (jsonObjectConverter.ValidateAndConvert c stats (some v) buf).stats.nullCount =
          stats.nullCount ∧
        (stats.first = true →
          (jsonObjectConverter.ValidateAndConvert c stats (some v) buf).stats.minStrVal = w ∧
          (jsonObjectConverter.ValidateAndConvert c stats (some v) buf).stats.maxStrVal = w) ∧
        (stats.first = false →
          (jsonObjectConverter.ValidateAndConvert c stats (some v) buf).stats.minStrVal =
            bMinStep stats.minStrVal w ∧
          (jsonObjectConverter.ValidateAndConvert c stats (some v) buf).stats.maxStrVal =
            bMaxStep stats.maxStrVal w) := by
  intro stats v buf h
  cases v with
  | jsonVal shape enc =>
    cases shape with
    | objectShape =>
      obtain ⟨w, hw, h1, h2, h3, h4⟩ :=
        jsonConverter_Hval c stats (.jsonVal .objectShape enc) buf h
      exact ⟨w, hw, h1, h2, h3, h4⟩
    | arrayShape => exact Option.noConfusion h
    | otherShape => exact Option.noConfusion h
  | boolean b => exact Option.noConfusion h
  | intVal i => exact Option.noConfusion h
  | uintVal u => exact Option.noConfusion h
  | float32V x => exact Option.noConfusion h
  | float64V x => exact Option.noConfusion h
  | str s => exact Option.noConfusion h
  | bytes bs => exact Option.noConfusion h
  | jsonNumber s => exact Option.noConfusion h
  | timestamp t => exact Option.noConfusion h

/-- Null-step obligation of the statistics invariant for the JSON-object
converter (maximum encoded length). -/
theorem jsonObjectConverter_Hnull_len (c : jsonConverter) :
    ∀ (stats : statsBuffer) (buf : TBuf),
      (jsonObjectConverter.ValidateAndConvert c stats none buf).err = none →
      (jsonObjectConverter.ValidateAndConvert c stats none buf).stats.maxStrLen =
        stats.maxStrLen ∧
      (jsonObjectConverter.ValidateAndConvert c stats none buf).stats.maxStrLen =
        stats.maxStrLen ∧
      (jsonObjectConverter.ValidateAndConvert c stats none buf).stats.first = stats.first ∧
      (jsonObjectConverter.ValidateAndConvert c stats none buf).stats.nullCount =
        stats.nullCount + 1 := by
  intro stats buf h
  exact jsonConverter_Hnull_len c stats buf h

/-- Value-step obligation of the statistics invariant for the JSON-object
converter (maximum encoded length). -/
theorem jsonObjectConverter_Hval_len (c : jsonConverter) :
    ∀ (stats : statsBuffer) (v : RuntimeValue) (buf : TBuf),
      (jsonObjectConverter.ValidateAndConvert c stats (some v) buf).err = none →
      ∃ w, (jsonObjectConvert? c v).map List.length = some w ∧
        (jsonObjectConverter.ValidateAndConvert c stats (some v) buf).stats.first = false ∧
        (jsonObjectConverter.ValidateAndConvert c stats (some v) buf).stats.nullCount =
          stats.nullCount ∧
        (stats.first = true →
          (jsonObjectConverter.ValidateAndConvert c stats (some v) buf).stats.maxStrLen = w ∧
          (jsonObjectConverter.ValidateAndConvert c stats (some v) buf).stats.maxStrLen = w) ∧
        (stats.first = false →
          (jsonObjectConverter.ValidateAndConvert c stats (some v) buf).stats.maxStrLen =
            max stats.maxStrLen w ∧
          (jsonObjectConverter.ValidateAndConvert c stats (some v) buf).stats.maxStrLen =
            max stats.maxStrLen w) := by
  intro stats v buf h
  cases v with
  | jsonVal shape enc =>
    cases shape with
    | objectShape =>
      obtain ⟨w, hw, h1, h2, h3, h4⟩ :=
        jsonConverter_Hval_len c stats (.jsonVal .objectShape enc) buf h
      exact ⟨w, hw, h1, h2, h3, h4⟩
    | arrayShape => exact Option.noConfusion h
    | otherShape => exact Option.noConfusion h
  | boolean b => exact Option.noConfusion h
  | intVal i => exact Option.noConfusion h
  | uintVal u => exact Option.noConfusion h
  | float32V x => exact Option.noConfusion h
  | float64V x => exact Option.noConfusion h
  | str s => exact Option.noConfusion h
  | bytes bs => exact Option.noConfusion h
  | jsonNumber s => exact Option.noConfusion h
  | timestamp t => exact Option.noConfusion h

/-- C1: for every sequence of inputs accepted by one converter run against a
freshly zero-initialized statistics buffer: `nullCount` counts exactly the
interleaved null inputs; when no non-null value was accepted the aggregates
are untouched (`first` still set); otherwise `first` is cleared and
`minIntVal`/`maxIntVal` (number, boolean, timestamp, time-of-day and date
converters, Int128 order), `minRealVal`/`maxRealVal` (double converter,
float64 min/max over the finite coerced values), and `minStrVal`/`maxStrVal`
(binary and the three JSON converters, byte-lexicographic order) are the true
minimum and maximum of the converted values — a member of the list bounding
every element — while `maxStrLen` is the true maximum encoded byte length for
binary and JSON values; and on the very first accepted value both aggregates
are initialized to it with the first flag cleared. -/
theorem claim_C1_stats_true_min_max :
    (∀ (c : numberConverter) (l : List (Option RuntimeValue)) (buf : TBuf) (r : ConvResult),
      r = runRows c.ValidateAndConvert statsBuffer.init buf l → r.err = none →
      (r.stats.nullCount = (countNulls l : Int))
      ∧ (convertedNums c l = [] → r.stats.first = true ∧
          r.stats.minIntVal = 0 ∧ r.stats.maxIntVal = 0)
      ∧ (convertedNums c l ≠ [] → r.stats.first = false ∧
          r.stats.minIntVal ∈ convertedNums c l ∧
          (∀ x ∈ convertedNums c l, r.stats.minIntVal ≤ x) ∧
          r.stats.maxIntVal ∈ convertedNums c l ∧
          (∀ x ∈ convertedNums c l, x ≤ r.stats.maxIntVal)))
    ∧ (∀ (c : numberConverter) (v : RuntimeValue) (w : int128.Num) (buf : TBuf),
        c.convert v = .ok w →
        (c.ValidateAndConvert statsBuffer.init (some v) buf).stats.first = false ∧
        (c.ValidateAndConvert statsBuffer.init (some v) buf).stats.minIntVal = w ∧
        (c.ValidateAndConvert statsBuffer.init (some v) buf).stats.maxIntVal = w)
    ∧ (∀ (c : doubleConverter) (l : List (Option RuntimeValue)) (buf : TBuf) (r : ConvResult),
        r = runRows c.ValidateAndConvert statsBuffer.init buf l → r.err = none →
        (r.stats.nullCount = (countNulls l : Int))
        ∧ (∀ q qs, convertedQs l = q :: qs → r.stats.first = false ∧
            r.stats.minRealVal = .finite (qs.foldl min q) ∧
            r.stats.maxRealVal = .finite (qs.foldl max q) ∧
            qs.foldl min q ∈ q :: qs ∧ (∀ x ∈ q :: qs, qs.foldl min q ≤ x) ∧
            qs.foldl max q ∈ q :: qs ∧ (∀ x ∈ q :: qs, x ≤ qs.foldl max q)))
    ∧ (∀ (c : binaryConverter) (l : List (Option RuntimeValue)) (buf : TBuf) (r : ConvResult),
        r = runRows c.ValidateAndConvert statsBuffer.init buf l → r.err = none →
        (r.stats.nullCount = (countNulls l : Int))
        ∧ (convertedBytes l ≠ [] → r.stats.first = false ∧
            r.stats.minStrVal ∈ convertedBytes l ∧
            (∀ x ∈ convertedBytes l, bytesLe r.stats.minStrVal x) ∧
            r.stats.maxStrVal ∈ convertedBytes l ∧
            (∀ x ∈ convertedBytes l, bytesLe x r.stats.maxStrVal) ∧
            r.stats.maxStrLen ∈ (convertedBytes l).map List.length ∧
            (∀ n ∈ (convertedBytes l).map List.length, n ≤ r.stats.maxStrLen)))
    ∧ (∀ (c : boolConverter) (l : List (Option RuntimeValue)) (buf : TBuf) (r : ConvResult),
        r = runRows c.ValidateAndConvert statsBuffer.init buf l → r.err = none →
        (r.stats.nullCount = (countNulls l : Int))
        ∧ (convertedBools l = [] → r.stats.first = true ∧
            r.stats.minIntVal = 0 ∧ r.stats.maxIntVal = 0)
        ∧ (convertedBools l ≠ [] → r.stats.first = false ∧
            r.stats.minIntVal ∈ convertedBools l ∧
            (∀ x ∈ convertedBools l, r.stats.minIntVal ≤ x) ∧
            r.stats.maxIntVal ∈ convertedBools l ∧
            (∀ x ∈ convertedBools l, x ≤ r.stats.maxIntVal)))
    ∧ (∀ (c : timestampConverter) (l : List (Option RuntimeValue)) (buf : TBuf) (r : ConvResult),
        r = runRows c.ValidateAndConvert statsBuffer.init buf l → r.err = none →
        (r.stats.nullCount = (countNulls l : Int))
        ∧ (convertedTimestamps c l = [] → r.stats.first = true ∧
            r.stats.minIntVal = 0 ∧ r.stats.maxIntVal = 0)
        ∧ (convertedTimestamps c l ≠ [] → r.stats.first = false ∧
            r.stats.minIntVal ∈ convertedTimestamps c l ∧
            (∀ x ∈ convertedTimestamps c l, r.stats.minIntVal ≤ x) ∧
            r.stats.maxIntVal ∈ convertedTimestamps c l ∧
            (∀ x ∈ convertedTimestamps c l, x ≤ r.stats.maxIntVal)))
    ∧ (∀ (c : timeConverter) (l : List (Option RuntimeValue)) (buf : TBuf) (r : ConvResult),
        r = runRows c.ValidateAndConvert statsBuffer.init buf l → r.err = none →
        (r.stats.nullCount = (countNulls l : Int))
        ∧ (convertedTimes c l = [] → r.stats.first = true ∧
            r.stats.minIntVal = 0 ∧ r.stats.maxIntVal = 0)
        ∧ (convertedTimes c l ≠ [] → r.stats.first = false ∧
            r.stats.minIntVal ∈ convertedTimes c l ∧
            (∀ x ∈ convertedTimes c l, r.stats.minIntVal ≤ x) ∧
            r.stats.maxIntVal ∈ convertedTimes c l ∧
            (∀ x ∈ convertedTimes c l, x ≤ r.stats.maxIntVal)))
    ∧ (∀ (c : dateConverter) (l : List (Option RuntimeValue)) (buf : TBuf) (r : ConvResult),
        r = runRows c.ValidateAndConvert statsBuffer.init buf l → r.err = none →
        (r.stats.nullCount = (countNulls l : Int))
        ∧ (convertedDates l = [] → r.stats.first = true ∧
            r.stats.minIntVal = 0 ∧ r.stats.maxIntVal = 0)
        ∧ (convertedDates l ≠ [] → r.stats.first = false ∧
            r.stats.minIntVal ∈ convertedDates l ∧
            (∀ x ∈ convertedDates l, r.stats.minIntVal ≤ x) ∧
            r.stats.maxIntVal ∈ convertedDates l ∧
            (∀ x ∈ convertedDates l, x ≤ r.stats.maxIntVal)))
    ∧ (∀ (c : jsonConverter) (l : List (Option RuntimeValue)) (buf : TBuf) (r : ConvResult),
        r = runRows c.ValidateAndConvert statsBuffer.init buf l → r.err = none →
        (r.stats.nullCount = (countNulls l : Int))
        ∧ (convertedJsons c l ≠ [] → r.stats.first = false ∧
            r.stats.minStrVal ∈ convertedJsons c l ∧
            (∀ x ∈ convertedJsons c l, bytesLe r.stats.minStrVal x) ∧
            r.stats.maxStrVal ∈ convertedJsons c l ∧
            (∀ x ∈ convertedJsons c l, bytesLe x r.stats.maxStrVal) ∧
            r.stats.maxStrLen ∈ (convertedJsons c l).map List.length ∧
            (∀ n ∈ (convertedJsons c l).map List.length, n ≤ r.stats.maxStrLen)))
    ∧ (∀ (c : jsonConverter) (l : List (Option RuntimeValue)) (buf : TBuf) (r : ConvResult),
        r = runRows (jsonArrayConverter.ValidateAndConvert c) statsBuffer.init buf l →
        r.err = none →
        (r.stats.nullCount = (countNulls l : Int))
        ∧ (convertedJsonArrays c l ≠ [] → r.stats.first = false ∧
            r.stats.minStrVal ∈ convertedJsonArrays c l ∧
            (∀ x ∈ convertedJsonArrays c l, bytesLe r.stats.minStrVal x) ∧
            r.stats.maxStrVal ∈ convertedJsonArrays c l ∧
            (∀ x ∈ convertedJsonArrays c l, bytesLe x r.stats.maxStrVal) ∧
            r.stats.maxStrLen ∈ (convertedJsonArrays c l).map List.length ∧
            (∀ n ∈ (convertedJsonArrays c l).map List.length, n ≤ r.stats.maxStrLen)))
    ∧ (∀ (c : jsonConverter) (l : List (Option RuntimeValue)) (buf : TBuf) (r : ConvResult),
        r = runRows (jsonObjectConverter.ValidateAndConvert c) statsBuffer.init buf l →
        r.err = none →
        (r.stats.nullCount = (countNulls l : Int))
        ∧ (convertedJsonObjects c l ≠ [] → r.stats.first = false ∧
            r.stats.minStrVal ∈ convertedJsonObjects c l ∧
            (∀ x ∈ convertedJsonObjects c l, bytesLe r.stats.minStrVal x) ∧
            r.stats.maxStrVal ∈ convertedJsonObjects c l ∧
            (∀ x ∈ convertedJsonObjects c l, bytesLe x r.stats.maxStrVal) ∧
            r.stats.maxStrLen ∈ (convertedJsonObjects c l).map List.length ∧
            (∀ n ∈ (convertedJsonObjects c l).map List.length, n ≤ r.stats.maxStrLen))) := by
  refine ⟨?_, ?_, ?_, ?_, ?_, ?_, ?_, ?_, ?_, ?_, ?_⟩
  · intro c l buf r hr herr
    subst hr
    have inv := runRows_stats_invariant (α := Int) min max c.ValidateAndConvert
      (fun v => (c.convert v).toOption) (fun s => s.minIntVal) (fun s => s.maxIntVal)
      (numberConverter_Hnull c) (numberConverter_Hval c) l statsBuffer.init buf herr
    beta_reduce at inv
    refine ⟨by simpa [statsBuffer.init] using inv.1, ?_, ?_⟩
    · intro hc
      have e := inv.2.1 hc
      exact ⟨by simpa [statsBuffer.init] using e.1,
             by simpa [statsBuffer.init] using e.2.1,
             by simpa [statsBuffer.init] using e.2.2⟩
    · intro hc
      cases hlist : convertedNums c l with
      | nil => exact absurd hlist hc
      | cons w ws =>
        have e := inv.2.2.1 w ws hlist rfl
        refine ⟨e.1, ?_, ?_, ?_, ?_⟩
        · rw [e.2.1]
          exact foldl_min_mem w ws
        · intro x hx
          rw [e.2.1]
          exact foldl_min_le w ws x hx
        · rw [e.2.2]
          exact foldl_max_mem w ws
        · intro x hx
          rw [e.2.2]
          exact foldl_max_le w ws x hx
  · intro c v w buf hcv
    refine ⟨?_, ?_, ?_⟩ <;>
      simp [numberConverter.ValidateAndConvert, hcv, statsBuffer.init]
  · intro c l buf r hr herr
    subst hr
    have inv := runRows_stats_invariant (α := F64) goMinF64 goMaxF64 c.ValidateAndConvert
      (fun v => ((ValueAsFloat64 v).toOption).map F64.finite)
      (fun s => s.minRealVal) (fun s => s.maxRealVal)
      (doubleConverter_Hnull c) (doubleConverter_Hval c) l statsBuffer.init buf herr
    beta_reduce at inv
    refine ⟨by simpa [statsBuffer.init] using inv.1, ?_⟩
    intro q qs hq
    have hshape : (l.filterMap fun ov =>
        ov.bind fun v => ((ValueAsFloat64 v).toOption).map F64.finite) =
        F64.finite q :: qs.map F64.finite := by
      rw [filterMap_float_eq, hq]
      rfl
    have e := inv.2.2.1 (F64.finite q) (qs.map F64.finite) hshape rfl
    refine ⟨e.1, ?_, ?_, foldl_min_mem q qs, foldl_min_le q qs,
      foldl_max_mem q qs, foldl_max_le q qs⟩
    · rw [e.2.1, foldl_goMin_map]
    · rw [e.2.2, foldl_goMax_map]
  · intro c l buf r hr herr
    subst hr
    have invS := runRows_stats_invariant (α := List Nat) bMinStep bMaxStep
      c.ValidateAndConvert (fun v => (ValueAsBytes v).toOption)
      (fun s => s.minStrVal) (fun s => s.maxStrVal)
      (binaryConverter_Hnull c) (binaryConverter_Hval c) l statsBuffer.init buf herr
    beta_reduce at invS
    have invL := runRows_stats_invariant (α := Nat) max max c.ValidateAndConvert
      (fun v => ((ValueAsBytes v).toOption).map List.length)
      (fun s => s.maxStrLen) (fun s => s.maxStrLen)
      (binaryConverter_Hnull_len c) (binaryConverter_Hval_len c) l statsBuffer.init buf herr
    beta_reduce at invL
    refine ⟨by simpa [statsBuffer.init] using invS.1, ?_⟩
    intro hc
    cases hlist : convertedBytes l with
    | nil => exact absurd hlist hc
    | cons bs bss =>
      have eS := invS.2.2.1 bs bss hlist rfl
      have hlenshape : (l.filterMap fun ov =>
          ov.bind fun v => ((ValueAsBytes v).toOption).map List.length) =
          bs.length :: bss.map List.length := by
        rw [filterMap_len_eq, hlist]
        rfl
      have eL := invL.2.2.1 bs.length (bss.map List.length) hlenshape rfl
      refine ⟨eS.1, ?_, ?_, ?_, ?_, ?_, ?_⟩
      · rw [eS.2.1]
        exact foldl_bMin_mem bs bss
      · intro x hx
        rw [eS.2.1]
        exact foldl_bMin_le bs bss x hx
      · rw [eS.2.2]
        exact foldl_bMax_mem bs bss
      · intro x hx
        rw [eS.2.2]
        exact foldl_bMax_le bs bss x hx
      · rw [eL.2.1]
        simpa using foldl_max_mem bs.length (bss.map List.length)
      · intro n hn
        rw [eL.2.1]
        refine foldl_max_le bs.length (bss.map List.length) n ?_
        simpa using hn
  · intro c l buf r hr herr
    subst hr
    have inv := runRows_stats_invariant (α := Int) min max c.ValidateAndConvert
      (fun v => ((ValueAsBool v).toOption).map fun b =>
        if b then int128.FromUint64 1 else int128.FromUint64 0)
      (fun s => s.minIntVal) (fun s => s.maxIntVal)
      (boolConverter_Hnull c) (boolConverter_Hval c) l statsBuffer.init buf herr
    beta_reduce at inv
    refine ⟨by simpa [statsBuffer.init] using inv.1, ?_, ?_⟩
    · intro hc
      have e := inv.2.1 hc
      exact ⟨by simpa [statsBuffer.init] using e.1,
             by simpa [statsBuffer.init] using e.2.1,
             by simpa [statsBuffer.init] using e.2.2⟩
    · intro hc
      cases hlist : convertedBools l with
      | nil => exact absurd hlist hc
      | cons w ws =>
        have e := inv.2.2.1 w ws hlist rfl
        refine ⟨e.1, ?_, ?_, ?_, ?_⟩
        · rw [e.2.1]
          exact foldl_min_mem w ws
        · intro x hx
          rw [e.2.1]
          exact foldl_min_le w ws x hx
        · rw [e.2.2]
          exact foldl_max_mem w ws
        · intro x hx
          rw [e.2.2]
          exact foldl_max_le w ws x hx
  · intro c l buf r hr herr
    subst hr
    have inv := runRows_stats_invariant (α := Int) min max c.ValidateAndConvert
      (fun v => timestampConvert? c v)
      (fun s => s.minIntVal) (fun s => s.maxIntVal)
      (timestampConverter_Hnull c) (timestampConverter_Hval c) l statsBuffer.init buf herr
    beta_reduce at inv
    refine ⟨by simpa [statsBuffer.init] using inv.1, ?_, ?_⟩
    · intro hc
      have e := inv.2.1 hc
      exact ⟨by simpa [statsBuffer.init] using e.1,
             by simpa [statsBuffer.init] using e.2.1,
             by simpa [statsBuffer.init] using e.2.2⟩
    · intro hc
      cases hlist : convertedTimestamps c l with
      | nil => exact absurd hlist hc
      | cons w ws =>
        have e := inv.2.2.1 w ws hlist rfl
        refine ⟨e.1, ?_, ?_, ?_, ?_⟩
        · rw [e.2.1]
          exact foldl_min_mem w ws
        · intro x hx
          rw [e.2.1]
          exact foldl_min_le w ws x hx
        · rw [e.2.2]
          exact foldl_max_mem w ws
        · intro x hx
          rw [e.2.2]
          exact foldl_max_le w ws x hx
  · intro c l buf r hr herr
    subst hr
    have inv := runRows_stats_invariant (α := Int) min max c.ValidateAndConvert
      (fun v => timeConvert? c v)
      (fun s => s.minIntVal) (fun s => s.maxIntVal)
      (timeConverter_Hnull c) (timeConverter_Hval c) l statsBuffer.init buf herr
    beta_reduce at inv
    refine ⟨by simpa [statsBuffer.init] using inv.1, ?_, ?_⟩
    · intro hc
      have e := inv.2.1 hc
      exact ⟨by simpa [statsBuffer.init] using e.1,
             by simpa [statsBuffer.init] using e.2.1,
             by simpa [statsBuffer.init] using e.2.2⟩
    · intro hc
      cases hlist : convertedTimes c l with
      | nil => exact absurd hlist hc
      | cons w ws =>
        have e := inv.2.2.1 w ws hlist rfl
        refine ⟨e.1, ?_, ?_, ?_, ?_⟩
        · rw [e.2.1]
          exact foldl_min_mem w ws
        · intro x hx
          rw [e.2.1]
          exact foldl_min_le w ws x hx
        · rw [e.2.2]
          exact foldl_max_mem w ws
        · intro x hx
          rw [e.2.2]
          exact foldl_max_le w ws x hx
  · intro c l buf r hr herr
    subst hr
    have inv := runRows_stats_invariant (α := Int) min max c.ValidateAndConvert
      (fun v => dateConvert? v)
      (fun s => s.minIntVal) (fun s => s.maxIntVal)
      (dateConverter_Hnull c) (dateConverter_Hval c) l statsBuffer.init buf herr
    beta_reduce at inv
    refine ⟨by simpa [statsBuffer.init] using inv.1, ?_, ?_⟩
    · intro hc
      have e := inv.2.1 hc
      exact ⟨by simpa [statsBuffer.init] using e.1,
             by simpa [statsBuffer.init] using e.2.1,
             by simpa [statsBuffer.init] using e.2.2⟩
    · intro hc
      cases hlist : convertedDates l with
      | nil => exact absurd hlist hc
      | cons w ws =>
        have e := inv.2.2.1 w ws hlist rfl
        refine ⟨e.1, ?_, ?_, ?_, ?_⟩
        · rw [e.2.1]
          exact foldl_min_mem w ws
        · intro x hx
          rw [e.2.1]
          exact foldl_min_le w ws x hx
        · rw [e.2.2]
          exact foldl_max_mem w ws
        · intro x hx
          rw [e.2.2]
          exact foldl_max_le w ws x hx
  · intro c l buf r hr herr
    subst hr
    have invS := runRows_stats_invariant (α := List Nat) bMinStep bMaxStep
      c.ValidateAndConvert (fun v => jsonConvert? c v)
      (fun s => s.minStrVal) (fun s => s.maxStrVal)
      (jsonConverter_Hnull c) (jsonConverter_Hval c) l statsBuffer.init buf herr
    beta_reduce at invS
    have invL := runRows_stats_invariant (α := Nat) max max c.ValidateAndConvert
      (fun v => (jsonConvert? c v).map List.length)
      (fun s => s.maxStrLen) (fun s => s.maxStrLen)
      (jsonConverter_Hnull_len c) (jsonConverter_Hval_len c) l statsBuffer.init buf herr
    beta_reduce at invL
    refine ⟨by simpa [statsBuffer.init] using invS.1, ?_⟩
    intro hc
    cases hlist : convertedJsons c l with
    | nil => exact absurd hlist hc
    | cons bs bss =>
      have eS := invS.2.2.1 bs bss hlist rfl
      have hlenshape : (l.filterMap fun ov =>
          ov.bind fun v => (jsonConvert? c v).map List.length) =
          bs.length :: bss.map List.length := by
        rw [filterMap_jsonLen_eq, hlist]
        rfl
      have eL := invL.2.2.1 bs.length (bss.map List.length) hlenshape rfl
      refine ⟨eS.1, ?_, ?_, ?_, ?_, ?_, ?_⟩
      · rw [eS.2.1]
        exact foldl_bMin_mem bs bss
      · intro x hx
        rw [eS.2.1]
        exact foldl_bMin_le bs bss x hx
      · rw [eS.2.2]
        exact foldl_bMax_mem bs bss
      · intro x hx
        rw [eS.2.2]
        exact foldl_bMax_le bs bss x hx
      · rw [eL.2.1]
        simpa using foldl_max_mem bs.length (bss.map List.length)
      · intro n hn
        rw [eL.2.1]
        refine foldl_max_le bs.length (bss.map List.length) n ?_
        simpa using hn
  · intro c l buf r hr herr
    subst hr
    have invS := runRows_stats_invariant (α := List Nat) bMinStep bMaxStep
      (jsonArrayConverter.ValidateAndConvert c) (fun v => jsonArrayConvert? c v)
      (fun s => s.minStrVal) (fun s => s.maxStrVal)
      (jsonArrayConverter_Hnull c) (jsonArrayConverter_Hval c) l statsBuffer.init buf herr
    beta_reduce at invS
    have invL := runRows_stats_invariant (α := Nat) max max
      (jsonArrayConverter.ValidateAndConvert c)
      (fun v => (jsonArrayConvert? c v).map List.length)
      (fun s => s.maxStrLen) (fun s => s.maxStrLen)
      (jsonArrayConverter_Hnull_len c) (jsonArrayConverter_Hval_len c) l
      statsBuffer.init buf herr
    beta_reduce at invL
    refine ⟨by simpa [statsBuffer.init] using invS.1, ?_⟩
    intro hc
    cases hlist : convertedJsonArrays c l with
    | nil => exact absurd hlist hc
    | cons bs bss =>
      have eS := invS.2.2.1 bs bss hlist rfl
      have hlenshape : (l.filterMap fun ov =>
          ov.bind fun v => (jsonArrayConvert? c v).map List.length) =
          bs.length :: bss.map List.length := by
        rw [filterMap_jsonArrayLen_eq, hlist]
        rfl
      have eL := invL.2.2.1 bs.length (bss.map List.length) hlenshape rfl
      refine ⟨eS.1, ?_, ?_, ?_, ?_, ?_, ?_⟩
      · rw [eS.2.1]
        exact foldl_bMin_mem bs bss
      · intro x hx
        rw [eS.2.1]
        exact foldl_bMin_le bs bss x hx
      · rw [eS.2.2]
        exact foldl_bMax_mem bs bss
      · intro x hx
        rw [eS.2.2]
        exact foldl_bMax_le bs bss x hx
      · rw [eL.2.1]
        simpa using foldl_max_mem bs.length (bss.map List.length)
      · intro n hn
        rw [eL.2.1]
        refine foldl_max_le bs.length (bss.map List.length) n ?_
        simpa using hn
  · intro c l buf r hr herr
    subst hr
    have invS := runRows_stats_invariant (α := List Nat) bMinStep bMaxStep
      (jsonObjectConverter.ValidateAndConvert c) (fun v => jsonObjectConvert? c v)
      (fun s => s.minStrVal) (fun s => s.maxStrVal)
      (jsonObjectConverter_Hnull c) (jsonObjectConverter_Hval c) l statsBuffer.init buf herr
    beta_reduce at invS
    have invL := runRows_stats_invariant (α := Nat) max max
      (jsonObjectConverter.ValidateAndConvert c)
      (fun v => (jsonObjectConvert? c v).map List.length)
      (fun s => s.maxStrLen) (fun s => s.maxStrLen)
      (jsonObjectConverter_Hnull_len c) (jsonObjectConverter_Hval_len c) l
      statsBuffer.init buf herr
    beta_reduce at invL
    refine ⟨by simpa [statsBuffer.init] using invS.1, ?_⟩
    intro hc
    cases hlist : convertedJsonObjects c l with
    | nil => exact absurd hlist hc
    | cons bs bss =>
      have eS := invS.2.2.1 bs bss hlist rfl
      have hlenshape : (l.filterMap fun ov =>
          ov.bind fun v => (jsonObjectConvert? c v).map List.length) =
          bs.length :: bss.map List.length := by
        rw [filterMap_jsonObjectLen_eq, hlist]
        rfl
      have eL := invL.2.2.1 bs.length (bss.map List.length) hlenshape rfl
      refine ⟨eS.1, ?_, ?_, ?_, ?_, ?_, ?_⟩
      · rw [eS.2.1]
        exact foldl_bMin_mem bs bss
      · intro x hx
        rw [eS.2.1]
        exact foldl_bMin_le bs bss x hx
      · rw [eS.2.2]
        exact foldl_bMax_mem bs bss
      · intro x hx
        rw [eS.2.2]
        exact foldl_bMax_le bs bss x hx
      · rw [eL.2.1]
        simpa using foldl_max_mem bs.length (bss.map List.length)
      · intro n hn
        rw [eL.2.1]
        refine foldl_max_le bs.length (bss.map List.length) n ?_
        simpa using hn

/-- Closed instance of the statistics theorem: the number converter over
inputs [3, null, 1] from a fresh buffer ends with one null counted, the first
flag cleared, minimum 1 and maximum 3, and the minimum is one of the
converted values. -/
theorem claim_C1_witness :
    (runRows ((⟨true, 0, 38⟩ : numberConverter).ValidateAndConvert) statsBuffer.init
      exampleBuf [some (.intVal 3), none, some (.intVal 1)]).err = none ∧
    (runRows ((⟨true, 0, 38⟩ : numberConverter).ValidateAndConvert) statsBuffer.init
      exampleBuf [some (.intVal 3), none, some (.intVal 1)]).stats.nullCount = 1 ∧
    (runRows ((⟨true, 0, 38⟩ : numberConverter).ValidateAndConvert) statsBuffer.init
      exampleBuf [some (.intVal 3), none, some (.intVal 1)]).stats.first = false ∧
    (runRows ((⟨true, 0, 38⟩ : numberConverter).ValidateAndConvert) statsBuffer.init
      exampleBuf [some (.intVal 3), none, some (.intVal 1)]).stats.minIntVal = 1 ∧
    (runRows ((⟨true, 0, 38⟩ : numberConverter).ValidateAndConvert) statsBuffer.init
      exampleBuf [some (.intVal 3), none, some (.intVal 1)]).stats.maxIntVal = 3 ∧
    (runRows ((⟨true, 0, 38⟩ : numberConverter).ValidateAndConvert) statsBuffer.init
      exampleBuf [some (.intVal 3), none, some (.intVal 1)]).stats.minIntVal ∈
      convertedNums ⟨true, 0, 38⟩ [some (.intVal 3), none, some (.intVal 1)] := by
  have h := claim_C1_stats_true_min_max.1 ⟨true, 0, 38⟩
    [some (.intVal 3), none, some (.intVal 1)] exampleBuf _ rfl (by decide)
  have hne : convertedNums (⟨true, 0, 38⟩ : numberConverter)
      [some (.intVal 3), none, some (.intVal 1)] ≠ [] := by decide
  have h3 := h.2.2 hne
  exact ⟨by decide, by decide, h3.1, by decide, by decide, h3.2.1⟩

end Streaming
